import Mathlib

/-!
Verification of the forest-explorer ingestion pipeline.

The development shallowly embeds the three loaders of
`backend/app/ingestion` (`fia_loader.py`, `prism_loader.py`,
`tiger_loader.py`). DataFrames become lists of cell rows with a column
header, the relational store becomes per-table row lists, and each
`engine.begin()` transaction becomes one emitted event so ordering and
atomicity claims can be stated over the run's trace.
-/

set_option autoImplicit false

namespace ForestExplorer

/-- A cell value: numbers, strings, or a PostGIS point built from a
longitude and a latitude cell value (`ST_MakePoint(lon, lat)`). -/
inductive Val where
  | int : Int → Val
  | rat : ℚ → Val
  | str : String → Val
  | point : Val → Val → Val
deriving DecidableEq, Repr

/-- A nullable cell: `none` is SQL NULL / pandas NaN. -/
abbrev Cell := Option Val

/-- A stored row: an association list from (lowercase) column name to cell. -/
abbrev Row := List (String × Cell)

/-- Read a column of a stored row (first occurrence wins, as in SQL
association of column names); an absent column reads as NULL. -/
def Row.get : Row → String → Cell
  | [], _ => none
  | p :: rest, c => if p.1 = c then p.2 else Row.get rest c

/-- Write a column of a stored row (used for the geometry backfill). -/
def Row.set (r : Row) (c : String) (v : Cell) : Row :=
  (r.filter (fun p => !(p.1 == c))) ++ [(c, v)]

/-- ASCII lowercase of one character (the alphabet `str.lower()` acts on
in these headers), written as a table so it evaluates in the kernel. -/
def lowerChar : Char → Char
  | 'A' => 'a' | 'B' => 'b' | 'C' => 'c' | 'D' => 'd' | 'E' => 'e' | 'F' => 'f'
  | 'G' => 'g' | 'H' => 'h' | 'I' => 'i' | 'J' => 'j' | 'K' => 'k' | 'L' => 'l'
  | 'M' => 'm' | 'N' => 'n' | 'O' => 'o' | 'P' => 'p' | 'Q' => 'q' | 'R' => 'r'
  | 'S' => 's' | 'T' => 't' | 'U' => 'u' | 'V' => 'v' | 'W' => 'w' | 'X' => 'x'
  | 'Y' => 'y' | 'Z' => 'z'
  | c => c

/-- `str.lower()` on a column name. -/
def strLower (s : String) : String :=
  ⟨s.data.map lowerChar⟩

/-- ASCII uppercase of one character (`str.upper()` on a state
abbreviation), written as a table so it evaluates in the kernel. -/
def upperChar : Char → Char
  | 'a' => 'A' | 'b' => 'B' | 'c' => 'C' | 'd' => 'D' | 'e' => 'E' | 'f' => 'F'
  | 'g' => 'G' | 'h' => 'H' | 'i' => 'I' | 'j' => 'J' | 'k' => 'K' | 'l' => 'L'
  | 'm' => 'M' | 'n' => 'N' | 'o' => 'O' | 'p' => 'P' | 'q' => 'Q' | 'r' => 'R'
  | 's' => 'S' | 't' => 'T' | 'u' => 'U' | 'v' => 'V' | 'w' => 'W' | 'x' => 'X'
  | 'y' => 'Y' | 'z' => 'Z'
  | c => c

/-- `str.upper()` on a state abbreviation. -/
def strUpper (s : String) : String :=
  ⟨s.data.map upperChar⟩

/-- A pandas DataFrame: a column header plus rows of cells, each row
aligned positionally with the header. -/
structure DF where
  cols : List String
  rows : List (List Cell)
deriving DecidableEq, Repr

/-- Read the cell of one DataFrame row under a column name (positional:
the cell sitting under the first matching header entry); an absent
column reads as NULL. -/
def getCell : List String → List Cell → String → Cell
  | [], _, _ => none
  | c' :: cols, r, c => if c' = c then r.headD none else getCell cols r.tail c

/-- `df[cs]`: column projection, keeping the order of `cs`. -/
def selectCols (df : DF) (cs : List String) : DF :=
  { cols := cs, rows := df.rows.map (fun r => cs.map (fun c => getCell df.cols r c)) }

/-- `df.columns = df.columns.str.lower()`. -/
def lowercaseCols (df : DF) : DF :=
  { df with cols := df.cols.map strLower }

/-- `df.dropna(subset=subset)`: keep rows where every subset column is
non-null. -/
def dropnaSubset (df : DF) (subset : List String) : DF :=
  { df with rows := df.rows.filter (fun r => subset.all (fun c => (getCell df.cols r c).isSome)) }

/-- `pd.read_csv(..., usecols=lambda c: c in usecols_set)`: keep only the
whitelisted columns, in source order. -/
def readUsecols (usecols : List String) (df : DF) : DF :=
  selectCols df (df.cols.filter (fun c => usecols.contains c))

/-- Turn a cleaned DataFrame into store rows (what `to_sql` appends). -/
def toRows (df : DF) : List Row :=
  df.rows.map (fun r => df.cols.zip r)

/-- Columns kept from the PLOT table (`PLOT_COLS`). -/
def PLOT_COLS : List String :=
  ["CN", "STATECD", "UNITCD", "COUNTYCD", "PLOT", "INVYR", "LAT", "LON", "ELEV", "ECOSUBCD"]

/-- Columns kept from the COND table (`COND_COLS`). -/
def COND_COLS : List String :=
  ["CN", "PLT_CN", "CONDID", "STATECD", "FORTYPCD", "STDAGE", "STDSZCD", "SITECLCD",
   "SLOPE", "ASPECT", "OWNCD", "OWNGRPCD", "CONDPROP_UNADJ"]

/-- Columns kept from the TREE table (`TREE_COLS`). -/
def TREE_COLS : List String :=
  ["CN", "PLT_CN", "CONDID", "SUBP", "TREE", "STATECD", "SPCD", "DIA", "HT", "ACTUALHT",
   "CR", "STATUSCD", "DRYBIO_AG", "DRYBIO_BG", "CARBON_AG", "CARBON_BG", "TPA_UNADJ", "VOLCFNET"]

/-- FK-safe ordering: dependents deleted first, parents loaded first. -/
def DELETE_ORDER : List String := ["fia_tree", "fia_cond", "fia_plot"]

/-- `clean_plot_df`: project to the available PLOT columns, lowercase the
header, and drop rows with a null latitude or longitude. -/
def clean_plot_df (df : DF) : DF :=
  let available := PLOT_COLS.filter (fun c => df.cols.contains c)
  dropnaSubset (lowercaseCols (selectCols df available)) ["lat", "lon"]

/-- `clean_cond_df`: project to the available COND columns and lowercase
the header. -/
def clean_cond_df (df : DF) : DF :=
  let available := COND_COLS.filter (fun c => df.cols.contains c)
  lowercaseCols (selectCols df available)

/-- `clean_tree_df`: project to the available TREE columns and lowercase
the header. -/
def clean_tree_df (df : DF) : DF :=
  let available := TREE_COLS.filter (fun c => df.cols.contains c)
  lowercaseCols (selectCols df available)

/-- FIA state FIPS codes (`STATE_CODES`). -/
def STATE_CODES : List (String × Int) :=
  [("AL", 1), ("AK", 2), ("AZ", 4), ("AR", 5), ("CA", 6), ("CO", 8), ("CT", 9), ("DE", 10),
   ("FL", 12), ("GA", 13), ("HI", 15), ("ID", 16), ("IL", 17), ("IN", 18), ("IA", 19),
   ("KS", 20), ("KY", 21), ("LA", 22), ("ME", 23), ("MD", 24), ("MA", 25), ("MI", 26),
   ("MN", 27), ("MS", 28), ("MO", 29), ("MT", 30), ("NE", 31), ("NV", 32), ("NH", 33),
   ("NJ", 34), ("NM", 35), ("NY", 36), ("NC", 37), ("ND", 38), ("OH", 39), ("OK", 40),
   ("OR", 41), ("PA", 42), ("RI", 44), ("SC", 45), ("SD", 46), ("TN", 47), ("TX", 48),
   ("UT", 49), ("VT", 50), ("VA", 51), ("WA", 53), ("WV", 54), ("WI", 55), ("WY", 56)]

/-- One committed store transaction of a run (`engine.begin()` block or
pandas `to_sql` call): a region-scoped delete, one chunk append, or the
geometry backfill. -/
inductive Ev where
  | del : String → Int → Ev
  | load : String → Nat → Ev
  | geom : String → Ev
deriving DecidableEq, Repr

/-- The raw-schema store tables the FIA loader touches. -/
structure Store where
  fia_plot : List Row
  fia_cond : List Row
  fia_tree : List Row
deriving DecidableEq, Repr

/-- Read a store table by name. -/
def Store.get (s : Store) (t : String) : List Row :=
  if t = "fia_plot" then s.fia_plot
  else if t = "fia_cond" then s.fia_cond
  else if t = "fia_tree" then s.fia_tree
  else []

/-- Replace a store table by name. -/
def Store.set (s : Store) (t : String) (rows : List Row) : Store :=
  if t = "fia_plot" then { s with fia_plot := rows }
  else if t = "fia_cond" then { s with fia_cond := rows }
  else if t = "fia_tree" then { s with fia_tree := rows }
  else s

/-- `delete_state_data`: `DELETE FROM t WHERE statecd = :statecd` — keep
only rows whose `statecd` differs from the given code (NULL never
matches). One transaction. -/
def delete_state_data (t : List Row) (statecd : Int) : List Row :=
  t.filter (fun r => !(Row.get r "statecd" == some (Val.int statecd)))

/-- The per-row effect of `update_plot_geometry`: where `lat` and `lon`
are non-null and `geom` is NULL, set `geom = ST_SetSRID(ST_MakePoint(lon,
lat), 4326)`. Not scoped by state. -/
def updateGeomRow (r : Row) : Row :=
  match Row.get r "lat", Row.get r "lon", Row.get r "geom" with
  | some la, some lo, none => Row.set r "geom" (some (Val.point lo la))
  | _, _, _ => r

/-- `update_plot_geometry`: one UPDATE transaction over the whole table. -/
def update_plot_geometry (t : List Row) : List Row :=
  t.map updateGeomRow

/-- `_ingest_table_chunked`: clean every chunk and append the non-empty
cleaned ones, each append one transaction; returns the updated table, the
total row count and the append events. -/
def ingest_table_chunked (chunks : List DF) (table_name : String)
    (clean_fn : DF → DF) (usecols : List String) (t : List Row) :
    List Row × Nat × List Ev :=
  chunks.foldl
    (fun acc chunk =>
      let cleaned := clean_fn (readUsecols usecols chunk)
      if cleaned.rows.length = 0 then acc
      else (acc.1 ++ toRows cleaned, acc.2.1 + cleaned.rows.length,
            acc.2.2 ++ [Ev.load table_name cleaned.rows.length]))
    (t, 0, [])

/-- `table_config`: FIA table name → (store table, clean fn, column
whitelist, needs geometry backfill). -/
def table_config : String → Option (String × (DF → DF) × List String × Bool)
  | "PLOT" => some ("fia_plot", clean_plot_df, PLOT_COLS, true)
  | "COND" => some ("fia_cond", clean_cond_df, COND_COLS, false)
  | "TREE" => some ("fia_tree", clean_tree_df, TREE_COLS, false)
  | _ => none

/-- Outcome of one `ingest_state` run: final store, per-table row counts,
and the transaction trace. -/
structure IngestResult where
  store : Store
  results : List (String × Nat)
  trace : List Ev
deriving DecidableEq, Repr

/-- A source snapshot: for each FIA table name, the chunk sequence its
downloaded CSV parses into. -/
abbrev Src := String → List DF

/-- The store tables whose region rows the run will delete
(`pg_tables_to_load`). -/
def pgTablesRequested (tables : List String) : List String :=
  tables.filterMap (fun t => (table_config t).map (fun cfg => cfg.1))

/-- The delete phase of `ingest_state`: walk `DELETE_ORDER` and delete the
region's rows from each requested table, one transaction each. -/
def deletePhase (statecd : Int) (tables : List String) (s : Store) : Store × List Ev :=
  DELETE_ORDER.foldl
    (fun acc dep_table =>
      if (pgTablesRequested tables).contains dep_table then
        (acc.1.set dep_table (delete_state_data (acc.1.get dep_table) statecd),
         acc.2 ++ [Ev.del dep_table statecd])
      else acc)
    (s, [])

/-- One iteration of `ingest_state`'s load loop: skip unknown table names,
otherwise fetch the table's chunks, clean-and-append them, and backfill
geometry when the table needs it. -/
def loadStep (src : Src) (acc : IngestResult) (t : String) : IngestResult :=
  match table_config t with
  | none => acc
  | some (pg, clean_fn, usecols, needs_geometry) =>
    let r := ingest_table_chunked (src t) pg clean_fn usecols (acc.store.get pg)
    let s1 := acc.store.set pg r.1
    let s2 := if needs_geometry then s1.set pg (update_plot_geometry (s1.get pg)) else s1
    { store := s2,
      results := acc.results ++ [(t, r.2.1)],
      trace := acc.trace ++ r.2.2 ++ (if needs_geometry then [Ev.geom pg] else []) }

/-- `ingest_state` after region validation: delete the requested store
tables' region rows following `DELETE_ORDER`, then for each requested
table in caller order clean-and-append its chunks, backfilling geometry
after a table that needs it; unknown table names are skipped. -/
def ingest_state (statecd : Int) (tables : List String) (src : Src) (s : Store) :
    IngestResult :=
  let afterDel := deletePhase statecd tables s
  tables.foldl (loadStep src) { store := afterDel.1, results := [], trace := afterDel.2 }

/-- The rows one table's full clean-and-load pipeline appends: clean each
chunk and concatenate. -/
def cleanedRows (chunks : List DF) (clean_fn : DF → DF) (usecols : List String) : List Row :=
  (chunks.map (fun c => toRows (clean_fn (readUsecols usecols c)))).flatten

/-- The append events one table's chunked load emits: one per non-empty
cleaned chunk, in chunk order. -/
def chunkLoadEvents (chunks : List DF) (table_name : String)
    (clean_fn : DF → DF) (usecols : List String) : List Ev :=
  (chunks.map (fun c =>
    let cleaned := clean_fn (readUsecols usecols c)
    if cleaned.rows.length = 0 then ([] : List Ev)
    else [Ev.load table_name cleaned.rows.length])).flatten

/-- Declarative transaction trace of one requested table's load: its chunk
appends followed by its geometry backfill when it has one. -/
def tableEvents (src : Src) (t : String) : List Ev :=
  match table_config t with
  | none => []
  | some (pg, clean_fn, usecols, needs_geometry) =>
    chunkLoadEvents (src t) pg clean_fn usecols ++ (if needs_geometry then [Ev.geom pg] else [])

/-- Declarative trace of the load phase, from the spec: the requested
tables' load events concatenated in the caller's request order. -/
def loadTraceSpec (src : Src) (tables : List String) : List Ev :=
  (tables.map (tableEvents src)).flatten

/-- Declarative trace of the delete phase, from the spec: one delete per
requested table, dependents first (`DELETE_ORDER`), all before any load. -/
def deleteTraceSpec (statecd : Int) (tables : List String) : List Ev :=
  (DELETE_ORDER.filter (fun dt => (pgTablesRequested tables).contains dt)).map
    (fun dt => Ev.del dt statecd)

/-- Whether an event is a chunk append into the named table. -/
def isLoadOf (e : Ev) (tbl : String) : Bool :=
  match e with
  | Ev.load t _ => t == tbl
  | _ => false

/-- A trace holds no append into the named table. -/
def noLoadOf (tr : List Ev) (tbl : String) : Bool :=
  tr.all (fun e => !(isLoadOf e tbl))

/-- Every append into table `a` occurs before every append into table `b`:
no `b` append is followed, later in the trace, by an `a` append. -/
def loadsBefore : List Ev → String → String → Bool
  | [], _, _ => true
  | e :: rest, a, b =>
    (if isLoadOf e b then noLoadOf rest a else true) && loadsBefore rest a b

/-- The spec's parent-first load order: every plot append precedes every
condition and tree append, and every condition append precedes every tree
append. -/
def parentFirstLoads (tr : List Ev) : Bool :=
  loadsBefore tr "fia_plot" "fia_cond" && loadsBefore tr "fia_plot" "fia_tree" &&
    loadsBefore tr "fia_cond" "fia_tree"

/-- A dependent row's parent-plot reference resolves: either it is NULL,
or some plot row of the same region (same `statecd`) carries it as `cn`. -/
def fkResolvedB (plots : List Row) (r : Row) : Bool :=
  match Row.get r "plt_cn" with
  | none => true
  | some p =>
    plots.any (fun q => Row.get q "cn" == some p && Row.get q "statecd" == Row.get r "statecd")

/-- FK-safety of the run's region after a run: every condition and tree
row carrying the region's code has a resolvable parent-plot reference. -/
def fkSafeRegionB (s : Store) (statecd : Int) : Bool :=
  ((s.fia_cond ++ s.fia_tree).filter
    (fun r => Row.get r "statecd" == some (Val.int statecd))).all (fkResolvedB s.fia_plot)

/-- Every chunk of the snapshot carries `STATECD = statecd` on every row
(true of FIA per-state files). -/
def chunksPureB (chunks : List DF) (statecd : Int) : Bool :=
  chunks.all (fun c => c.rows.all (fun r => getCell c.cols r "STATECD" == some (Val.int statecd)))

/-- Every chunk of the snapshot has a duplicate-free header (true of CSV
parses). -/
def chunksNodupB (chunks : List DF) : Bool :=
  chunks.all (fun c => decide c.cols.Nodup)

/-- Every dependent row of a chunk whose `PLT_CN` is non-null references
some plot chunk row with that `CN`, the same `STATECD`, and non-null
coordinates. -/
def depsCoveredB (plotChunks : List DF) (chunks : List DF) : Bool :=
  chunks.all (fun c => c.rows.all (fun r =>
    match getCell c.cols r "PLT_CN" with
    | none => true
    | some p =>
      plotChunks.any (fun pc => pc.rows.any (fun q =>
        getCell pc.cols q "CN" == some p &&
        getCell pc.cols q "STATECD" == getCell c.cols r "STATECD" &&
        (getCell pc.cols q "LAT").isSome && (getCell pc.cols q "LON").isSome))))

/-- `ingest_state`'s entry: uppercase the abbreviation, reject unknown
states before any store work, default the table list. -/
def ingest_state_abbr (state_abbr : String) (tables : Option (List String))
    (src : Src) (s : Store) : Except String IngestResult :=
  match STATE_CODES.lookup (strUpper state_abbr) with
  | none => Except.error ("Unknown state: " ++ strUpper state_abbr)
  | some statecd => Except.ok (ingest_state statecd (tables.getD ["PLOT", "COND", "TREE"]) src s)

/-! ### PRISM climate-normals loader (`prism_loader.py`) -/

/-- `str(n).zfill(2)`: pad a numeral to at least two characters. -/
def zfill2 (n : Int) : String :=
  let s := toString n
  if s.length < 2 then "0" ++ s else s

/-- numpy's round-half-to-even on a rational, to an integer. -/
def roundHalfEven (x : ℚ) : ℤ :=
  if x - ⌊x⌋ < 1 / 2 then ⌊x⌋
  else if (1 : ℚ) / 2 < x - ⌊x⌋ then ⌊x⌋ + 1
  else if ⌊x⌋ % 2 = 0 then ⌊x⌋ else ⌊x⌋ + 1

/-- `np.round(x, d)`. -/
def npRound (d : ℕ) (x : ℚ) : ℚ :=
  (roundHalfEven (x * 10 ^ d) : ℚ) / 10 ^ d

/-- A PRISM BIL raster grid: dimensions, georeference (north-up affine
transform with square cells) and cell data. -/
structure Raster where
  height : Nat
  width : Nat
  left : ℚ
  top : ℚ
  cellsize : ℚ
  data : List (List ℚ)

/-- `src.index(lon, lat)`: geographic coordinate to (row, col) grid
index under the north-up affine transform. -/
def Raster.index (g : Raster) (lon lat : ℚ) : Int × Int :=
  (⌊(g.top - lat) / g.cellsize⌋, ⌊(lon - g.left) / g.cellsize⌋)

/-- `src.read(1)[row, col]`: read one cell of the materialized grid. -/
def Raster.read (g : Raster) (row col : Nat) : ℚ :=
  (g.data.getD row []).getD col (-9999)

/-- The loop body of `_sample_raster_at_points` for one (lon, lat) pair:
`none` (NaN) when the index falls outside the grid bounds or the cell
does not exceed the -9999 nodata sentinel. -/
def samplePoint (g : Raster) (lon lat : ℚ) : Option ℚ :=
  let rc := g.index lon lat
  if 0 ≤ rc.1 ∧ rc.1 < (g.height : Int) ∧ 0 ≤ rc.2 ∧ rc.2 < (g.width : Int) then
    let val := g.read rc.1.toNat rc.2.toNat
    if -9999 < val then some val else none
  else none

/-- `_sample_raster_at_points`: one value per (lon, lat) pair. -/
def sample_raster_at_points (g : Raster) (lats lons : List ℚ) : List (Option ℚ) :=
  (lons.zip lats).map (fun pt => samplePoint g pt.1 pt.2)

/-- The tables `load_prism_normals` touches: `raw.fia_plot` (read-only)
and `raw.prism_normals`. -/
structure PrismStore where
  fia_plot : List Row
  prism_normals : List Row
deriving DecidableEq, Repr

/-- One committed transaction of the climate loader: the region-scoped
delete, or the single `to_sql` append of the whole result set. -/
inductive PTxn where
  | delNormals : Int → PTxn
  | appendNormals : List Row → PTxn
deriving DecidableEq, Repr

/-- The climate columns of the result frame (everything but `plot_cn`). -/
def PRISM_CLIM_COLS : List String :=
  ["annual_tmean_f", "annual_ppt_in", "jan_tmean_f", "jul_tmean_f", "growing_season_ppt_in"]

/-- Numeric reading of a cell (plot latitudes/longitudes are numeric). -/
def cellQ (c : Cell) : ℚ :=
  match c with
  | some (Val.int n) => (n : ℚ)
  | some (Val.rat q) => q
  | _ => 0

/-- NaN-propagating addition (`growing_ppt += sampled`). -/
def naAdd (a b : Option ℚ) : Option ℚ :=
  match a, b with
  | some x, some y => some (x + y)
  | _, _ => none

/-- The region's plot rows `load_prism_normals` reads: `statecd` matches
and both coordinates are non-null. -/
def prismPlots (statecd : Int) (s : PrismStore) : List Row :=
  s.fia_plot.filter (fun r =>
    Row.get r "statecd" == some (Val.int statecd) &&
      (Row.get r "lat").isSome && (Row.get r "lon").isSome)

/-- The result frame of `load_prism_normals`: per plot, the four sampled
variables unit-converted and rounded, plus the Apr-Sep precipitation sum;
rows whose climate fields are all NaN are dropped. -/
def prismResultsRows (statecd : Int) (rasters : String → Raster) (s : PrismStore) : List Row :=
  let plots := prismPlots statecd s
  let lats := plots.map (fun r => cellQ (Row.get r "lat"))
  let lons := plots.map (fun r => cellQ (Row.get r "lon"))
  let tmean_annual := sample_raster_at_points (rasters "tmean_annual") lats lons
  let ppt_annual := sample_raster_at_points (rasters "ppt_annual") lats lons
  let tmean_jan := sample_raster_at_points (rasters "tmean_jan") lats lons
  let tmean_jul := sample_raster_at_points (rasters "tmean_jul") lats lons
  let growing_ppt := (List.range' 4 6).foldl
    (fun acc m => acc.zipWith naAdd (sample_raster_at_points (rasters ("ppt_" ++ zfill2 m)) lats lons))
    (List.replicate plots.length (some (0 : ℚ)))
  let results := (List.range plots.length).map (fun i =>
    [("plot_cn", Row.get (plots.getD i []) "cn"),
     ("annual_tmean_f", (tmean_annual.getD i none).map (fun v => Val.rat (npRound 1 (v * 9 / 5 + 32)))),
     ("annual_ppt_in", (ppt_annual.getD i none).map (fun v => Val.rat (npRound 2 (v / (254 / 10))))),
     ("jan_tmean_f", (tmean_jan.getD i none).map (fun v => Val.rat (npRound 1 (v * 9 / 5 + 32)))),
     ("jul_tmean_f", (tmean_jul.getD i none).map (fun v => Val.rat (npRound 1 (v * 9 / 5 + 32)))),
     ("growing_season_ppt_in", (growing_ppt.getD i none).map (fun v => Val.rat (npRound 2 (v / (254 / 10)))))])
  results.filter (fun r => PRISM_CLIM_COLS.any (fun c => (Row.get r c).isSome))

/-- The normals surviving the region-scoped delete: rows whose `plot_cn`
does not match the `cn` of any of the region's plot rows (the SQL
subquery has no coordinate condition; NULLs never match `IN`). -/
def prismKeptNormals (statecd : Int) (s : PrismStore) : List Row :=
  let regionCns := (s.fia_plot.filter
    (fun r => Row.get r "statecd" == some (Val.int statecd))).map (fun r => Row.get r "cn")
  s.prism_normals.filter (fun r =>
    !(regionCns.any (fun c =>
      match c, Row.get r "plot_cn" with
      | some a, some b => a == b
      | _, _ => false)))

/-- `load_prism_normals`: read the region's plot coordinates; if none,
return zero without touching the store; otherwise delete the region's
normals (one transaction), then append the whole result frame (one
transaction). Returns the store, the transaction list, and the row
count. -/
def load_prism_normals (statecd : Int) (rasters : String → Raster) (s : PrismStore) :
    PrismStore × List PTxn × Nat :=
  let plots := prismPlots statecd s
  if plots.length = 0 then (s, [], 0)
  else
    let results := prismResultsRows statecd rasters s
    ({ fia_plot := s.fia_plot, prism_normals := prismKeptNormals statecd s ++ results },
     [PTxn.delNormals statecd, PTxn.appendNormals results], results.length)

/-- Replay one committed climate transaction against a store state. -/
def applyPTxn (s : PrismStore) : PTxn → PrismStore
  | PTxn.delNormals statecd => { s with prism_normals := prismKeptNormals statecd s }
  | PTxn.appendNormals rows => { s with prism_normals := s.prism_normals ++ rows }

/-- Replay a prefix of committed climate transactions. -/
def applyPTxns (txns : List PTxn) (s : PrismStore) : PrismStore :=
  txns.foldl applyPTxn s

/-! ### TIGER county-boundary loader (`tiger_loader.py`) -/

/-- One feature of the national TIGER county shapefile. -/
structure CountyFeature where
  STATEFP : String
  COUNTYFP : Int
  GEOID : String
  NAME : String
  ALAND : Int
  AWATER : Int
  geometry : Val
deriving DecidableEq, Repr

/-- The parsed national shapefile: its coordinate reference system (EPSG
code, when set) and its features. -/
structure GeoDF where
  crs : Option Int
  features : List CountyFeature
deriving DecidableEq, Repr

/-- The table `load_county_boundaries` touches. -/
structure TigerStore where
  county_boundaries : List Row
deriving DecidableEq, Repr

/-- Whether the source CRS requires reprojection to EPSG:4326. -/
def gdfNeedsReproj (gdf : GeoDF) : Bool :=
  match gdf.crs with
  | some e => !(e == 4326)
  | none => false

/-- The canonical-schema row one county feature turns into: renamed
fields, derived numeric state and county codes, geometry reprojected when
required. -/
def countyRow (statecd : Int) (needsReproj : Bool) (reproj : Val → Val)
    (f : CountyFeature) : Row :=
  [("geoid", some (Val.str f.GEOID)), ("name", some (Val.str f.NAME)),
   ("statecd", some (Val.int statecd)), ("countycd", some (Val.int f.COUNTYFP)),
   ("aland", some (Val.int f.ALAND)), ("awater", some (Val.int f.AWATER)),
   ("geometry", some (if needsReproj then reproj f.geometry else f.geometry))]

/-- `load_county_boundaries` after region validation: filter the national
feature set to the region's `STATEFP`; when empty, return zero rows
without touching the store; otherwise rename/derive the canonical fields,
reproject when the source CRS is not EPSG:4326 (`to_crs` abstracted as
`reproj`), delete the region's existing rows, and append the transformed
features. -/
def load_county_boundaries (statecd : Int) (gdf : GeoDF) (reproj : Val → Val)
    (s : TigerStore) : TigerStore × Nat :=
  let statefp := zfill2 statecd
  let filtered := gdf.features.filter (fun f => f.STATEFP == statefp)
  if filtered.length = 0 then (s, 0)
  else
    let rows := filtered.map (countyRow statecd (gdfNeedsReproj gdf) reproj)
    let kept := s.county_boundaries.filter
      (fun r => !(Row.get r "statecd" == some (Val.int statecd)))
    ({ county_boundaries := kept ++ rows }, rows.length)

/-- `load_county_boundaries`'s entry: reject unknown regions before any
fetch or store work. -/
def load_county_boundaries_abbr (state_abbr : String) (gdf : GeoDF) (reproj : Val → Val)
    (s : TigerStore) : Except String (TigerStore × Nat) :=
  match STATE_CODES.lookup (strUpper state_abbr) with
  | none => Except.error ("Unknown state: " ++ strUpper state_abbr)
  | some statecd => Except.ok (load_county_boundaries statecd gdf reproj s)

/-! ### Fetcher scratch-file and archive-fallback model
(`download_fia_csv`, `_download_prism_bil`) -/

/-- What the remote serves for one FIA state/table fetch. -/
structure FiaRemote where
  csvExists : Bool
  csvOk : Bool
  zipOk : Bool
  zipReadable : Bool
  members : List String
deriving DecidableEq, Repr

/-- Failure conditions a fetch can raise. -/
inductive FetchErr where
  | fetchFailed
  | badZip
  | indexError
  | noBilFile
deriving DecidableEq, Repr

/-- The scratch files `download_fia_csv` can create. -/
inductive ScratchFile where
  | zipTmp
  | csvTmp
  | directTmp
deriving DecidableEq, Repr

/-- `download_fia_csv`, instrumented with the scratch files on disk at
return or raise. The HEAD probe picks the direct or archive form; the
archive fallback extracts the FIRST member (`zf.namelist()[0]`) with no
name matching, deleting only the archive in its `finally`; the direct
form streams to a temp file with no cleanup handler. On success, the
returned scratch file is the caller's to delete. -/
def download_fia_csv (rm : FiaRemote) : Except FetchErr (ScratchFile × String) × List ScratchFile :=
  if !rm.csvExists then
    if !rm.zipOk then (Except.error FetchErr.fetchFailed, [])
    else if !rm.zipReadable then (Except.error FetchErr.badZip, [ScratchFile.csvTmp])
    else
      match rm.members with
      | [] => (Except.error FetchErr.indexError, [ScratchFile.csvTmp])
      | m :: _ => (Except.ok (ScratchFile.csvTmp, m), [ScratchFile.csvTmp])
  else
    if !rm.csvOk then (Except.error FetchErr.fetchFailed, [ScratchFile.directTmp])
    else (Except.ok (ScratchFile.directTmp, "direct"), [ScratchFile.directTmp])

/-- Exit status of one per-table fetch-transform-load iteration. -/
inductive TableRunExit where
  | success
  | transformFailed
  | fetchRaised : FetchErr → TableRunExit
deriving DecidableEq, Repr

/-- The per-table wrapper in `ingest_state`: download, then
`try: transform-and-load finally: csv_path.unlink()`. `transformOk`
abstracts whether the body raises. Returns the exit status and the
scratch files surviving the whole iteration. -/
def fetch_table_scratch (rm : FiaRemote) (transformOk : Bool) :
    TableRunExit × List ScratchFile :=
  match download_fia_csv rm with
  | (Except.error e, leftover) => (TableRunExit.fetchRaised e, leftover)
  | (Except.ok f, alive) =>
    ((if transformOk then TableRunExit.success else TableRunExit.transformFailed),
     alive.erase f.1)

/-- Suffix test on file names (the `*.bil` glob), via character lists so
it evaluates in the kernel. -/
def strEndsWith (s suffix : String) : Bool :=
  List.isSuffixOf suffix.data s.data

/-- What the remote serves for one PRISM variable fetch. -/
structure PrismRemote where
  dlOk : Bool
  zipReadable : Bool
  members : List String
deriving DecidableEq, Repr

/-- `_download_prism_bil`, instrumented with the scratch files (inside
its fresh temp directory) on disk at return or raise: stream the archive
to `prism.zip`, extract every member, delete the archive, return the
first `.bil` member or raise when none exists. -/
def download_prism_bil (rm : PrismRemote) : Except FetchErr String × List String :=
  if !rm.dlOk then (Except.error FetchErr.fetchFailed, ["prism.zip"])
  else if !rm.zipReadable then (Except.error FetchErr.badZip, ["prism.zip"])
  else
    match rm.members.filter (fun m => strEndsWith m ".bil") with
    | [] => (Except.error FetchErr.noBilFile, rm.members)
    | b :: _ => (Except.ok b, rm.members)

/-- One PRISM variable fetch as `load_prism_normals` runs it: a
successful fetch is recorded in `raster_paths`, whose directories the
`finally` block empties and removes; a raised fetch is never recorded,
so its scratch directory survives. -/
def prism_fetch_scratch (rm : PrismRemote) : Except FetchErr String × List String :=
  match download_prism_bil rm with
  | (Except.ok b, _) => (Except.ok b, [])
  | (Except.error e, leftover) => (Except.error e, leftover)

/-! ### Proof-layer views of the cleaning pipeline -/

/-- The shared shape of the three cleaning functions: project to the
available whitelisted columns and lowercase the header. -/
def genClean (COLS : List String) (df : DF) : DF :=
  lowercaseCols (selectCols df (COLS.filter (fun c => df.cols.contains c)))

/-- The stored row a source row turns into after usecols-projection,
cleaning and `to_sql`: the available whitelisted columns, lowercased,
each bound to the source row's cell. -/
def projRow (COLS cols : List String) (r : List Cell) : Row :=
  ((COLS.filter (fun c => cols.contains c)).map strLower).zip
    ((COLS.filter (fun c => cols.contains c)).map (getCell cols r))

/-! ### Concrete snapshots and stores used in counterexamples and
witnesses -/

/-- An empty store. -/
def store0 : Store := ⟨[], [], []⟩

/-- A PLOT chunk with one georeferenced plot and one plot lacking
coordinates. -/
def plotChunkC1x : DF :=
  { cols := ["CN", "STATECD", "INVYR", "LAT", "LON"],
    rows := [[some (Val.int 1001), some (Val.int 37), some (Val.int 2021),
              some (Val.int 35), some (Val.int (-79))],
             [some (Val.int 1002), some (Val.int 37), some (Val.int 2021), none, none]] }

/-- A TREE chunk whose single row references the coordinate-less plot. -/
def treeChunkC1x : DF :=
  { cols := ["CN", "PLT_CN", "STATECD"],
    rows := [[some (Val.int 2001), some (Val.int 1002), some (Val.int 37)]] }

/-- Snapshot whose TREE rows reference a plot that cleaning drops. -/
def srcC1x : Src := fun t =>
  if t = "PLOT" then [plotChunkC1x] else if t = "TREE" then [treeChunkC1x] else []

/-- A well-formed one-plot snapshot: one plot with coordinates, one
condition and one tree referencing it, all carrying `STATECD = 37`. -/
def plotChunkC1w : DF :=
  { cols := ["CN", "STATECD", "INVYR", "LAT", "LON"],
    rows := [[some (Val.int 1001), some (Val.int 37), some (Val.int 2021),
              some (Val.int 35), some (Val.int (-79))]] }

/-- COND chunk of the well-formed snapshot. -/
def condChunkC1w : DF :=
  { cols := ["CN", "PLT_CN", "STATECD"],
    rows := [[some (Val.int 3001), some (Val.int 1001), some (Val.int 37)]] }

/-- TREE chunk of the well-formed snapshot. -/
def treeChunkC1w : DF :=
  { cols := ["CN", "PLT_CN", "STATECD"],
    rows := [[some (Val.int 2001), some (Val.int 1001), some (Val.int 37)]] }

/-- The well-formed snapshot. -/
def srcC1w : Src := fun t =>
  if t = "PLOT" then [plotChunkC1w]
  else if t = "COND" then [condChunkC1w]
  else if t = "TREE" then [treeChunkC1w] else []

/-- Snapshot with one plot and one tree, used to request the tables in
child-first order. -/
def srcC2x : Src := fun t =>
  if t = "PLOT" then [plotChunkC1w] else if t = "TREE" then [treeChunkC1w] else []

/-- A PLOT chunk carrying a stray row of a different state
(`STATECD = 1`) with coordinates. -/
def plotChunkC3x : DF :=
  { cols := ["CN", "STATECD", "INVYR", "LAT", "LON"],
    rows := [[some (Val.int 5001), some (Val.int 1), some (Val.int 2021),
              some (Val.int 33), some (Val.int (-86))]] }

/-- Snapshot whose PLOT file contains only the stray foreign-state row. -/
def srcC3x : Src := fun t => if t = "PLOT" then [plotChunkC3x] else []

/-- A store holding one plot row of another region (`statecd = 1`) with
coordinates but no geometry yet. -/
def storeC4x : Store :=
  ⟨[[("cn", some (Val.int 9)), ("statecd", some (Val.int 1)),
     ("lat", some (Val.int 40)), ("lon", some (Val.int (-100)))]], [], []⟩

/-- The empty snapshot. -/
def srcEmpty : Src := fun _ => []

/-- Raster family for witnesses: a 1×1 grid around (-99.5, 40.5) whose
single cell holds 5. -/
def rastersW : String → Raster := fun _ =>
  { height := 1, width := 1, left := -100, top := 41, cellsize := 1, data := [[5]] }

/-- Climate-loader store for the C5 witness: one georeferenced plot of
region 37 and one stale normal row for it. -/
def prismStoreC5w : PrismStore :=
  { fia_plot := [[("cn", some (Val.int 1001)), ("statecd", some (Val.int 37)),
                  ("lat", some (Val.rat (81 / 2))), ("lon", some (Val.rat (-199 / 2)))]],
    prism_normals := [[("plot_cn", some (Val.int 1001)), ("annual_tmean_f", some (Val.rat 60))]] }

/-- Climate-loader store for the C5 counterexample: the region has a
plot row, but it lacks coordinates, and a stale normal row references
it. -/
def prismStoreC5x : PrismStore :=
  { fia_plot := [[("cn", some (Val.int 1001)), ("statecd", some (Val.int 37)), ("lat", none),
                  ("lon", none)]],
    prism_normals := [[("plot_cn", some (Val.int 1001)), ("annual_tmean_f", some (Val.rat 60))]] }

/-- Raster for the C9 witness: 2×2 grid over (0,0)-(2,2), the southwest
cell holding the -9999 sentinel. -/
def rasterC9w : Raster :=
  { height := 2, width := 2, left := 0, top := 2, cellsize := 1,
    data := [[1, 2], [-9999, 4]] }

/-- National feature set for the C6 witness: one North Carolina county
and one Georgia county, in a non-4326 CRS. -/
def gdfC6w : GeoDF :=
  { crs := some 4269,
    features := [{ STATEFP := "37", COUNTYFP := 101, GEOID := "37101", NAME := "Johnston",
                   ALAND := 2049, AWATER := 21, geometry := Val.int 71 },
                 { STATEFP := "13", COUNTYFP := 1, GEOID := "13001", NAME := "Appling",
                   ALAND := 1314, AWATER := 15, geometry := Val.int 72 }] }

/-- Boundary store for the C6 witness: a stale North Carolina row and a
Georgia row. -/
def tigerStoreC6w : TigerStore :=
  { county_boundaries := [[("geoid", some (Val.str "37001")), ("statecd", some (Val.int 37))],
                          [("geoid", some (Val.str "13001")), ("statecd", some (Val.int 13))]] }

/-- Remote whose archive's first member is not a CSV. -/
def fiaRemoteC7x : FiaRemote :=
  { csvExists := false, csvOk := false, zipOk := true, zipReadable := true,
    members := ["README.txt"] }

/-- Remote whose archive download succeeds but does not open as a zip. -/
def fiaRemoteC8x : FiaRemote :=
  { csvExists := false, csvOk := false, zipOk := true, zipReadable := false, members := [] }

/-! ### Supporting lemmas: rows and cells -/

@[simp] theorem Row.get_nil (c : String) : Row.get [] c = none := rfl

@[simp] theorem Row.get_cons (p : String × Cell) (l : Row) (c : String) :
    Row.get (p :: l) c = if p.1 = c then p.2 else Row.get l c := rfl

theorem Row.get_set_self (r : Row) (c : String) (v : Cell) :
    Row.get (Row.set r c v) c = v := by
  induction r with
  | nil => simp [Row.set]
  | cons p rest ih =>
    by_cases hp : p.1 = c
    · simp only [Row.set, List.filter_cons] at ih ⊢
      simpa [hp] using ih
    · simp only [Row.set, List.filter_cons] at ih ⊢
      simpa [hp] using ih

theorem Row.get_set_ne (r : Row) (c c' : String) (v : Cell) (h : c' ≠ c) :
    Row.get (Row.set r c v) c' = Row.get r c' := by
  have hcc : ¬(c = c') := fun e => h e.symm
  induction r with
  | nil => simp [Row.set, hcc]
  | cons p rest ih =>
    by_cases hp : p.1 = c
    · have hpc : ¬(p.1 = c') := by rw [hp]; exact hcc
      simp only [Row.set, List.filter_cons] at ih ⊢
      simpa [hp, hpc, hcc, h] using ih
    · by_cases hpc : p.1 = c'
      · simp only [Row.set, List.filter_cons] at ih ⊢
        simp [hp, hpc, hcc, h]
      · simp only [Row.set, List.filter_cons] at ih ⊢
        simpa [hp, hpc, hcc, h] using ih

theorem updateGeomRow_get_ne (r : Row) (c : String) (h : c ≠ "geom") :
    Row.get (updateGeomRow r) c = Row.get r c := by
  unfold updateGeomRow
  cases hla : Row.get r "lat" <;> cases hlo : Row.get r "lon" <;>
    cases hg : Row.get r "geom" <;> simp [Row.get_set_ne _ _ _ _ h]

theorem Store.get_set_same (s : Store) (t : String) (rows : List Row)
    (h : t = "fia_plot" ∨ t = "fia_cond" ∨ t = "fia_tree") :
    (s.set t rows).get t = rows := by
  rcases h with h | h | h <;> subst h <;> simp [Store.set, Store.get]

theorem Store.get_set_other (s : Store) (t t' : String) (rows : List Row) (h : t' ≠ t) :
    (s.set t rows).get t' = s.get t' := by
  unfold Store.set Store.get
  split_ifs <;> simp_all

theorem getCell_not_mem (cols : List String) (r : List Cell) (c : String) (h : c ∉ cols) :
    getCell cols r c = none := by
  induction cols generalizing r with
  | nil => rfl
  | cons c' rest ih =>
    have h1 : c' ≠ c := fun e => h (e ▸ List.mem_cons_self c' rest)
    simp [getCell, h1, ih r.tail (fun m => h (List.mem_cons_of_mem _ m))]

theorem getCell_map_self (cs : List String) (f : String → Cell) (C : String)
    (hnd : cs.Nodup) (hC : C ∈ cs) : getCell cs (cs.map f) C = f C := by
  induction cs with
  | nil => cases hC
  | cons c rest ih =>
    by_cases hc : c = C
    · subst hc; simp [getCell]
    · have hr : C ∈ rest := (List.mem_cons.1 hC).resolve_left (fun e => hc e.symm)
      simp [getCell, hc, ih hnd.of_cons hr]

theorem getCell_lower_map (cs : List String) (f : String → Cell) (C : String)
    (hnd : (cs.map strLower).Nodup) (hC : C ∈ cs) :
    getCell (cs.map strLower) (cs.map f) (strLower C) = f C := by
  induction cs with
  | nil => cases hC
  | cons c rest ih =>
    rw [List.map_cons] at hnd
    obtain ⟨hnotin, hndrest⟩ := List.nodup_cons.1 hnd
    by_cases hc : strLower c = strLower C
    · rcases List.mem_cons.1 hC with h1 | h1
      · subst h1; simp [getCell]
      · exact absurd (hc ▸ List.mem_map_of_mem strLower h1) hnotin
    · have hr : C ∈ rest := (List.mem_cons.1 hC).resolve_left (fun e => hc (e ▸ rfl))
      simp [getCell, hc, ih hndrest hr]

theorem Row.get_zip_not_mem (ks : List String) (vs : List Cell) (c : String) (h : c ∉ ks) :
    Row.get (ks.zip vs) c = none := by
  induction ks generalizing vs with
  | nil => rfl
  | cons k rest ih =>
    cases vs with
    | nil => rfl
    | cons v vrest =>
      rw [List.zip_cons_cons]
      have h1 : k ≠ c := fun e => h (e ▸ List.mem_cons_self k rest)
      simp only [Row.get_cons, if_neg h1]
      exact ih vrest (fun m => h (List.mem_cons_of_mem _ m))

theorem contains_true_iff (l : List String) (c : String) : l.contains c = true ↔ c ∈ l := by
  simp

theorem Row.get_zip_lower (cs : List String) (f : String → Cell) (C : String)
    (hnd : (cs.map strLower).Nodup) (hC : C ∈ cs) :
    Row.get ((cs.map strLower).zip (cs.map f)) (strLower C) = f C := by
  induction cs with
  | nil => cases hC
  | cons c rest ih =>
    rw [List.map_cons] at hnd
    obtain ⟨hnotin, hndrest⟩ := List.nodup_cons.1 hnd
    rw [List.map_cons, List.map_cons, List.zip_cons_cons]
    by_cases hc : strLower c = strLower C
    · rcases List.mem_cons.1 hC with h1 | h1
      · subst h1; simp
      · exact absurd (hc ▸ List.mem_map_of_mem strLower h1) hnotin
    · have hr : C ∈ rest := (List.mem_cons.1 hC).resolve_left (fun e => hc (e ▸ rfl))
      simp only [Row.get_cons, if_neg hc]
      exact ih hndrest hr

/-! ### Supporting lemmas: the cleaning pipeline -/

theorem clean_cond_df_eq : clean_cond_df = genClean COND_COLS := rfl

theorem clean_tree_df_eq : clean_tree_df = genClean TREE_COLS := rfl

theorem clean_plot_df_eq (df : DF) :
    clean_plot_df df = dropnaSubset (genClean PLOT_COLS df) ["lat", "lon"] := rfl

theorem genClean_readUsecols (COLS : List String) (df : DF) (h : df.cols.Nodup) :
    genClean COLS (readUsecols COLS df) =
      { cols := (COLS.filter (fun c => df.cols.contains c)).map strLower,
        rows := df.rows.map
          (fun r => (COLS.filter (fun c => df.cols.contains c)).map (getCell df.cols r)) } := by
  unfold genClean readUsecols selectCols lowercaseCols
  simp only [List.map_map]
  have hkept_nodup : (df.cols.filter (fun c => COLS.contains c)).Nodup := h.filter _
  have hcs : COLS.filter (fun c => (df.cols.filter (fun c' => COLS.contains c')).contains c)
      = COLS.filter (fun c => df.cols.contains c) := by
    refine List.filter_congr ?_
    intro a ha
    cases hmem : df.cols.contains a with
    | true =>
      have ham : a ∈ df.cols.filter (fun c' => COLS.contains c') :=
        List.mem_filter.2 ⟨(contains_true_iff _ _).1 hmem, (contains_true_iff _ _).2 ha⟩
      exact (contains_true_iff _ _).2 ham
    | false =>
      have hnm : a ∉ df.cols := fun hm => by
        rw [(contains_true_iff _ _).2 hm] at hmem; cases hmem
      have : a ∉ df.cols.filter (fun c' => COLS.contains c') :=
        fun hm => hnm (List.mem_filter.1 hm).1
      cases hq : (df.cols.filter (fun c' => COLS.contains c')).contains a with
      | true => exact absurd ((contains_true_iff _ _).1 hq) this
      | false => rfl
  rw [hcs]
  congr 1
  refine List.map_congr_left ?_
  intro r _
  refine List.map_congr_left ?_
  intro a hA
  obtain ⟨haCOLS, haDf⟩ := List.mem_filter.1 hA
  exact getCell_map_self _ _ _ hkept_nodup
    (List.mem_filter.2 ⟨(contains_true_iff _ _).1 haDf, (contains_true_iff _ _).2 haCOLS⟩)

theorem chunk_cols_nodup {chunks : List DF} (h : chunksNodupB chunks = true) {ch : DF}
    (hch : ch ∈ chunks) : ch.cols.Nodup :=
  of_decide_eq_true (List.all_eq_true.1 h ch hch)

theorem projRow_get (COLS cols : List String) (r : List Cell) (C : String)
    (hnd : (COLS.map strLower).Nodup) (hC : C ∈ COLS) :
    Row.get (projRow COLS cols r) (strLower C) = getCell cols r C := by
  unfold projRow
  by_cases hav : C ∈ COLS.filter (fun c => cols.contains c)
  · have hndav : ((COLS.filter (fun c => cols.contains c)).map strLower).Nodup :=
      List.Nodup.sublist (List.Sublist.map _ (List.filter_sublist _)) hnd
    exact Row.get_zip_lower _ _ _ hndav hav
  · have hcnot : C ∉ cols := fun hcc =>
      hav (List.mem_filter.2 ⟨hC, (contains_true_iff _ _).2 hcc⟩)
    rw [getCell_not_mem _ _ _ hcnot]
    apply Row.get_zip_not_mem
    intro hmem
    rcases List.mem_map.1 hmem with ⟨C', hC', he⟩
    have hC'COLS : C' ∈ COLS := (List.mem_filter.1 hC').1
    exact hav ((List.inj_on_of_nodup_map hnd hC'COLS hC he) ▸ hC')

theorem getCell_proj (COLS cols : List String) (r : List Cell) (C : String)
    (hnd : (COLS.map strLower).Nodup) (hC : C ∈ COLS) :
    getCell ((COLS.filter (fun c => cols.contains c)).map strLower)
      ((COLS.filter (fun c => cols.contains c)).map (getCell cols r)) (strLower C)
      = getCell cols r C := by
  by_cases hav : C ∈ COLS.filter (fun c => cols.contains c)
  · have hndav : ((COLS.filter (fun c => cols.contains c)).map strLower).Nodup :=
      List.Nodup.sublist (List.Sublist.map _ (List.filter_sublist _)) hnd
    exact getCell_lower_map _ _ _ hndav hav
  · have hcnot : C ∉ cols := fun hcc =>
      hav (List.mem_filter.2 ⟨hC, (contains_true_iff _ _).2 hcc⟩)
    rw [getCell_not_mem _ _ _ hcnot]
    apply getCell_not_mem
    intro hmem
    rcases List.mem_map.1 hmem with ⟨C', hC', he⟩
    have hC'COLS : C' ∈ COLS := (List.mem_filter.1 hC').1
    exact hav ((List.inj_on_of_nodup_map hnd hC'COLS hC he) ▸ hC')

theorem toRows_genClean (COLS : List String) (df : DF) (h : df.cols.Nodup) :
    toRows (genClean COLS (readUsecols COLS df)) = df.rows.map (projRow COLS df.cols) := by
  rw [genClean_readUsecols _ _ h]
  unfold toRows projRow
  simp [List.map_map]

theorem cleanedRows_gen (COLS : List String) (chunks : List DF) (h : chunksNodupB chunks = true) :
    cleanedRows chunks (genClean COLS) COLS =
      (chunks.map (fun ch => ch.rows.map (projRow COLS ch.cols))).flatten := by
  unfold cleanedRows
  congr 1
  refine List.map_congr_left ?_
  intro ch hch
  exact toRows_genClean _ _ (chunk_cols_nodup h hch)

theorem toRows_clean_plot (ch : DF) (hnd : ch.cols.Nodup) :
    toRows (clean_plot_df (readUsecols PLOT_COLS ch)) =
      (ch.rows.filter (fun r =>
        (getCell ch.cols r "LAT").isSome && (getCell ch.cols r "LON").isSome)).map
        (projRow PLOT_COLS ch.cols) := by
  rw [clean_plot_df_eq, genClean_readUsecols _ _ hnd]
  unfold dropnaSubset toRows
  rw [List.filter_map]
  rw [List.map_map]
  have hfil : ch.rows.filter
      ((fun row => List.all ["lat", "lon"] (fun c =>
        (getCell ((PLOT_COLS.filter (fun c => ch.cols.contains c)).map strLower) row c).isSome))
        ∘ (fun r => (PLOT_COLS.filter (fun c => ch.cols.contains c)).map (getCell ch.cols r)))
      = ch.rows.filter (fun r =>
        (getCell ch.cols r "LAT").isSome && (getCell ch.cols r "LON").isSome) := by
    refine List.filter_congr ?_
    intro r _
    simp only [Function.comp_apply, List.all_cons, List.all_nil, Bool.and_true]
    rw [show ("lat" : String) = strLower "LAT" from rfl, show ("lon" : String) = strLower "LON" from rfl]
    rw [getCell_proj PLOT_COLS ch.cols r "LAT" (by decide) (by decide),
        getCell_proj PLOT_COLS ch.cols r "LON" (by decide) (by decide)]
  rw [hfil]
  rfl

theorem cleanedRows_plot (chunks : List DF) (h : chunksNodupB chunks = true) :
    cleanedRows chunks clean_plot_df PLOT_COLS =
      (chunks.map (fun ch =>
        (ch.rows.filter (fun r =>
          (getCell ch.cols r "LAT").isSome && (getCell ch.cols r "LON").isSome)).map
          (projRow PLOT_COLS ch.cols))).flatten := by
  unfold cleanedRows
  congr 1
  refine List.map_congr_left ?_
  intro ch hch
  exact toRows_clean_plot _ (chunk_cols_nodup h hch)

/-! ### Supporting lemmas: the load coordinator -/

theorem cleanedRows_cons (c : DF) (cs : List DF) (cf : DF → DF) (uc : List String) :
    cleanedRows (c :: cs) cf uc = toRows (cf (readUsecols uc c)) ++ cleanedRows cs cf uc := by
  simp [cleanedRows]

theorem chunkLoadEvents_cons (c : DF) (cs : List DF) (tn : String) (cf : DF → DF)
    (uc : List String) :
    chunkLoadEvents (c :: cs) tn cf uc =
      (if (cf (readUsecols uc c)).rows.length = 0 then []
       else [Ev.load tn (cf (readUsecols uc c)).rows.length]) ++ chunkLoadEvents cs tn cf uc := by
  simp [chunkLoadEvents]

theorem ingest_table_chunked_eq (chunks : List DF) (tn : String) (cf : DF → DF)
    (uc : List String) (t : List Row) :
    ingest_table_chunked chunks tn cf uc t =
      (t ++ cleanedRows chunks cf uc, (cleanedRows chunks cf uc).length,
       chunkLoadEvents chunks tn cf uc) := by
  have key : ∀ (cs : List DF) (a : List Row) (n : Nat) (e : List Ev),
      cs.foldl (fun acc chunk =>
        let cleaned := cf (readUsecols uc chunk)
        if cleaned.rows.length = 0 then acc
        else (acc.1 ++ toRows cleaned, acc.2.1 + cleaned.rows.length,
              acc.2.2 ++ [Ev.load tn cleaned.rows.length])) (a, n, e) =
      (a ++ cleanedRows cs cf uc, n + (cleanedRows cs cf uc).length,
       e ++ chunkLoadEvents cs tn cf uc) := by
    intro cs
    induction cs with
    | nil => intro a n e; simp [cleanedRows, chunkLoadEvents]
    | cons c rest ih =>
      intro a n e
      rw [List.foldl_cons, cleanedRows_cons]
      by_cases h0 : (cf (readUsecols uc c)).rows.length = 0
      · have htR : toRows (cf (readUsecols uc c)) = [] := by
          unfold toRows
          rw [List.length_eq_zero.1 h0]
          rfl
        simp only [h0, if_true, eq_self_iff_true]
        rw [ih, chunkLoadEvents_cons]
        simp [htR, h0]
      · have hlen : (toRows (cf (readUsecols uc c))).length
            = (cf (readUsecols uc c)).rows.length := by
          unfold toRows; rw [List.length_map]
        simp only [h0, if_false, ite_false]
        rw [ih, chunkLoadEvents_cons]
        simp [h0, hlen, List.append_assoc, Nat.add_assoc]
  unfold ingest_table_chunked
  have := key chunks t 0 []
  simpa using this

theorem deletePhase_eq (statecd : Int) (tables : List String) (s : Store) :
    deletePhase statecd tables s =
      ({ fia_plot := if (pgTablesRequested tables).contains "fia_plot" then
           delete_state_data s.fia_plot statecd else s.fia_plot,
         fia_cond := if (pgTablesRequested tables).contains "fia_cond" then
           delete_state_data s.fia_cond statecd else s.fia_cond,
         fia_tree := if (pgTablesRequested tables).contains "fia_tree" then
           delete_state_data s.fia_tree statecd else s.fia_tree },
       deleteTraceSpec statecd tables) := by
  unfold deletePhase deleteTraceSpec DELETE_ORDER
  by_cases h1 : "fia_tree" ∈ pgTablesRequested tables <;>
    by_cases h2 : "fia_cond" ∈ pgTablesRequested tables <;>
      by_cases h3 : "fia_plot" ∈ pgTablesRequested tables <;>
        simp [h1, h2, h3, Store.set, Store.get]

theorem loadTraceSpec_cons (src : Src) (t : String) (ts : List String) :
    loadTraceSpec src (t :: ts) = tableEvents src t ++ loadTraceSpec src ts := by
  simp [loadTraceSpec]

theorem loadPhase_trace (src : Src) (tables : List String) (acc : IngestResult) :
    (tables.foldl (loadStep src) acc).trace = acc.trace ++ loadTraceSpec src tables := by
  induction tables generalizing acc with
  | nil => simp [loadTraceSpec]
  | cons t ts ih =>
    rw [List.foldl_cons, ih, loadTraceSpec_cons]
    cases hcfg : table_config t with
    | none => simp [loadStep, hcfg, tableEvents]
    | some cfg =>
      obtain ⟨pg, cf, uc, g⟩ := cfg
      simp [loadStep, hcfg, tableEvents, ingest_table_chunked_eq, List.append_assoc]

theorem ingest_default_store (statecd : Int) (src : Src) (s : Store) :
    (ingest_state statecd ["PLOT", "COND", "TREE"] src s).store =
      { fia_plot := update_plot_geometry
          (delete_state_data s.fia_plot statecd ++
            cleanedRows (src "PLOT") clean_plot_df PLOT_COLS),
        fia_cond := delete_state_data s.fia_cond statecd ++
          cleanedRows (src "COND") clean_cond_df COND_COLS,
        fia_tree := delete_state_data s.fia_tree statecd ++
          cleanedRows (src "TREE") clean_tree_df TREE_COLS } := by
  unfold ingest_state
  rw [deletePhase_eq]
  have hreq : pgTablesRequested ["PLOT", "COND", "TREE"]
      = ["fia_plot", "fia_cond", "fia_tree"] := rfl
  rw [hreq]
  simp only [List.foldl_cons, List.foldl_nil]
  simp [loadStep, table_config, ingest_table_chunked_eq, Store.get, Store.set]

theorem ingest_trace_eq (statecd : Int) (tables : List String) (src : Src) (s : Store) :
    (ingest_state statecd tables src s).trace =
      deleteTraceSpec statecd tables ++ loadTraceSpec src tables := by
  unfold ingest_state
  rw [loadPhase_trace]
  rw [deletePhase_eq]

/-! ### Supporting lemmas: region scoping of deletes, appends and the
geometry backfill -/

theorem delete_append (a b : List Row) (cd : Int) :
    delete_state_data (a ++ b) cd = delete_state_data a cd ++ delete_state_data b cd := by
  unfold delete_state_data
  exact List.filter_append _ _

theorem delete_idem (a : List Row) (cd : Int) :
    delete_state_data (delete_state_data a cd) cd = delete_state_data a cd := by
  unfold delete_state_data
  rw [List.filter_filter]
  refine List.filter_congr ?_
  intro r _
  exact Bool.and_self _

theorem delete_update (X : List Row) (cd : Int) :
    delete_state_data (update_plot_geometry X) cd
      = update_plot_geometry (delete_state_data X cd) := by
  unfold delete_state_data update_plot_geometry
  rw [List.filter_map]
  congr 1
  refine List.filter_congr ?_
  intro r _
  simp [Function.comp, updateGeomRow_get_ne r "statecd" (by decide)]

theorem update_length (X : List Row) :
    (update_plot_geometry X).length = X.length := List.length_map _ _

theorem mem_delete_statecd (t : List Row) (cd : Int) (r : Row)
    (hr : r ∈ delete_state_data t cd) : ¬(Row.get r "statecd" = some (Val.int cd)) := by
  unfold delete_state_data at hr
  have h2 := (List.mem_filter.1 hr).2
  simpa using h2

theorem delete_pure_nil (rows : List Row) (cd : Int)
    (h : ∀ r ∈ rows, Row.get r "statecd" = some (Val.int cd)) :
    delete_state_data rows cd = [] := by
  unfold delete_state_data
  refine List.filter_eq_nil_iff.2 ?_
  intro r hr
  simp [h r hr]

theorem cleanedRows_gen_statecd (COLS : List String) (chunks : List DF) (cd : Int)
    (hnd : chunksNodupB chunks = true) (hp : chunksPureB chunks cd = true)
    (hmem : "STATECD" ∈ COLS) (hlnd : (COLS.map strLower).Nodup) :
    ∀ r ∈ cleanedRows chunks (genClean COLS) COLS,
      Row.get r "statecd" = some (Val.int cd) := by
  rw [cleanedRows_gen _ _ hnd]
  intro r hr
  rcases List.mem_flatten.1 hr with ⟨rows, hrows, hrmem⟩
  rcases List.mem_map.1 hrows with ⟨ch, hch, rfl⟩
  rcases List.mem_map.1 hrmem with ⟨r0, hr0, rfl⟩
  rw [show ("statecd" : String) = strLower "STATECD" from rfl,
      projRow_get COLS ch.cols r0 "STATECD" hlnd hmem]
  have hb := List.all_eq_true.1 (List.all_eq_true.1 hp ch hch) r0 hr0
  exact eq_of_beq hb

theorem cleanedRows_plot_statecd (chunks : List DF) (cd : Int)
    (hnd : chunksNodupB chunks = true) (hp : chunksPureB chunks cd = true) :
    ∀ r ∈ cleanedRows chunks clean_plot_df PLOT_COLS,
      Row.get r "statecd" = some (Val.int cd) := by
  rw [cleanedRows_plot _ hnd]
  intro r hr
  rcases List.mem_flatten.1 hr with ⟨rows, hrows, hrmem⟩
  rcases List.mem_map.1 hrows with ⟨ch, hch, rfl⟩
  rcases List.mem_map.1 hrmem with ⟨r0, hr0, rfl⟩
  rw [show ("statecd" : String) = strLower "STATECD" from rfl,
      projRow_get PLOT_COLS ch.cols r0 "STATECD" (by decide) (by decide)]
  have hb := List.all_eq_true.1 (List.all_eq_true.1 hp ch hch) r0 (List.mem_filter.1 hr0).1
  exact eq_of_beq hb

/-! ### Supporting lemmas: trace ordering -/

theorem noLoadOf_cons (e : Ev) (tr : List Ev) (t : String) :
    noLoadOf (e :: tr) t = (!(isLoadOf e t) && noLoadOf tr t) := by
  simp [noLoadOf]

theorem noLoadOf_append (x y : List Ev) (t : String) :
    noLoadOf (x ++ y) t = (noLoadOf x t && noLoadOf y t) := by
  simp [noLoadOf, List.all_append]

theorem loadsBefore_of_noLoadOf (tr : List Ev) (a b : String) (h : noLoadOf tr a = true) :
    loadsBefore tr a b = true := by
  induction tr with
  | nil => rfl
  | cons e rest ih =>
    rw [noLoadOf_cons, Bool.and_eq_true] at h
    unfold loadsBefore
    rw [Bool.and_eq_true]
    refine ⟨?_, ih h.2⟩
    by_cases hb : isLoadOf e b = true <;> simp [hb, h.2]

theorem loadsBefore_append (x y : List Ev) (a b : String)
    (hx : noLoadOf x b = true) (hy : noLoadOf y a = true) :
    loadsBefore (x ++ y) a b = true := by
  induction x with
  | nil => simpa using loadsBefore_of_noLoadOf y a b hy
  | cons e rest ih =>
    rw [noLoadOf_cons, Bool.and_eq_true] at hx
    rw [List.cons_append]
    unfold loadsBefore
    rw [Bool.and_eq_true]
    refine ⟨?_, ih hx.2⟩
    have hb : isLoadOf e b = false := by
      cases hq : isLoadOf e b
      · rfl
      · rw [hq] at hx; simp at hx
    simp [hb]

theorem noLoadOf_chunkEvents (chunks : List DF) (pg : String) (cf : DF → DF)
    (uc : List String) (t : String) (h : t ≠ pg) :
    noLoadOf (chunkLoadEvents chunks pg cf uc) t = true := by
  induction chunks with
  | nil => rfl
  | cons c cs ih =>
    rw [chunkLoadEvents_cons, noLoadOf_append, Bool.and_eq_true]
    refine ⟨?_, ih⟩
    by_cases h0 : (cf (readUsecols uc c)).rows.length = 0 <;>
      simp [h0, noLoadOf, isLoadOf, Ne.symm h]

theorem noLoadOf_deleteTrace (statecd : Int) (tables : List String) (t : String) :
    noLoadOf (deleteTraceSpec statecd tables) t = true := by
  unfold deleteTraceSpec noLoadOf
  rw [List.all_eq_true]
  intro e he
  rcases List.mem_map.1 he with ⟨dt, _, rfl⟩
  rfl

theorem noLoadOf_geom (pg : String) (t : String) : noLoadOf [Ev.geom pg] t = true := rfl

theorem noLoadOf_nil (t : String) : noLoadOf [] t = true := rfl

theorem noLoadOf_tePlot (src : Src) (tbl : String) (h : tbl ≠ "fia_plot") :
    noLoadOf (tableEvents src "PLOT") tbl = true := by
  show noLoadOf (chunkLoadEvents (src "PLOT") "fia_plot" clean_plot_df PLOT_COLS
      ++ [Ev.geom "fia_plot"]) tbl = true
  rw [noLoadOf_append, Bool.and_eq_true]
  exact ⟨noLoadOf_chunkEvents _ _ _ _ _ h, rfl⟩

theorem noLoadOf_teCond (src : Src) (tbl : String) (h : tbl ≠ "fia_cond") :
    noLoadOf (tableEvents src "COND") tbl = true := by
  show noLoadOf (chunkLoadEvents (src "COND") "fia_cond" clean_cond_df COND_COLS ++ []) tbl = true
  rw [noLoadOf_append, Bool.and_eq_true]
  exact ⟨noLoadOf_chunkEvents _ _ _ _ _ h, rfl⟩

theorem noLoadOf_teTree (src : Src) (tbl : String) (h : tbl ≠ "fia_tree") :
    noLoadOf (tableEvents src "TREE") tbl = true := by
  show noLoadOf (chunkLoadEvents (src "TREE") "fia_tree" clean_tree_df TREE_COLS ++ []) tbl = true
  rw [noLoadOf_append, Bool.and_eq_true]
  exact ⟨noLoadOf_chunkEvents _ _ _ _ _ h, rfl⟩

theorem parentFirst_default (statecd : Int) (src : Src) (s : Store) :
    parentFirstLoads (ingest_state statecd ["PLOT", "COND", "TREE"] src s).trace = true := by
  rw [ingest_trace_eq]
  have hL : loadTraceSpec src ["PLOT", "COND", "TREE"]
      = tableEvents src "PLOT" ++ (tableEvents src "COND" ++ (tableEvents src "TREE" ++ [])) := by
    simp [loadTraceSpec]
  rw [hL]
  set A := deleteTraceSpec statecd ["PLOT", "COND", "TREE"] with hA
  set P := tableEvents src "PLOT" with hP
  set C := tableEvents src "COND" with hC
  set T := tableEvents src "TREE" with hT
  have hnA : ∀ t, noLoadOf A t = true := fun t => by rw [hA]; exact noLoadOf_deleteTrace _ _ _
  have hnP : ∀ t, t ≠ "fia_plot" → noLoadOf P t = true := fun t ht => by
    rw [hP]; exact noLoadOf_tePlot _ _ ht
  have hnC : ∀ t, t ≠ "fia_cond" → noLoadOf C t = true := fun t ht => by
    rw [hC]; exact noLoadOf_teCond _ _ ht
  have hnT : ∀ t, t ≠ "fia_tree" → noLoadOf T t = true := fun t ht => by
    rw [hT]; exact noLoadOf_teTree _ _ ht
  unfold parentFirstLoads
  rw [Bool.and_eq_true, Bool.and_eq_true]
  refine ⟨⟨?_, ?_⟩, ?_⟩
  · have e1 : A ++ (P ++ (C ++ (T ++ []))) = (A ++ P) ++ (C ++ (T ++ [])) := by
      simp [List.append_assoc]
    rw [e1]
    apply loadsBefore_append
    · rw [noLoadOf_append, Bool.and_eq_true]
      exact ⟨hnA _, hnP _ (by decide)⟩
    · rw [noLoadOf_append, Bool.and_eq_true]
      refine ⟨hnC _ (by decide), ?_⟩
      rw [noLoadOf_append, Bool.and_eq_true]
      exact ⟨hnT _ (by decide), rfl⟩
  · have e1 : A ++ (P ++ (C ++ (T ++ []))) = (A ++ P) ++ (C ++ (T ++ [])) := by
      simp [List.append_assoc]
    rw [e1]
    apply loadsBefore_append
    · rw [noLoadOf_append, Bool.and_eq_true]
      exact ⟨hnA _, hnP _ (by decide)⟩
    · rw [noLoadOf_append, Bool.and_eq_true]
      refine ⟨hnC _ (by decide), ?_⟩
      rw [noLoadOf_append, Bool.and_eq_true]
      exact ⟨hnT _ (by decide), rfl⟩
  · have e2 : A ++ (P ++ (C ++ (T ++ []))) = (A ++ (P ++ C)) ++ (T ++ []) := by
      simp [List.append_assoc]
    rw [e2]
    apply loadsBefore_append
    · rw [noLoadOf_append, Bool.and_eq_true]
      refine ⟨hnA _, ?_⟩
      rw [noLoadOf_append, Bool.and_eq_true]
      exact ⟨hnP _ (by decide), hnC _ (by decide)⟩
    · rw [noLoadOf_append, Bool.and_eq_true]
      exact ⟨hnT _ (by decide), rfl⟩

/-! ### Claim theorems -/

/-- C2, counterexample: with the requested table list `["TREE", "PLOT"]`
the run emits a `fia_tree` chunk append before the `fia_plot` one, so
"loads the requested tables in parent-first order (Plot, then Condition,
then TreeRecord)" fails: the load order follows the caller's list, not a
fixed parent-first order. -/
theorem C2_counterexample :
    (ingest_state 37 ["TREE", "PLOT"] srcC2x store0).trace.any
        (fun e => isLoadOf e "fia_plot") = true ∧
      (ingest_state 37 ["TREE", "PLOT"] srcC2x store0).trace.any
        (fun e => isLoadOf e "fia_tree") = true ∧
      parentFirstLoads (ingest_state 37 ["TREE", "PLOT"] srcC2x store0).trace = false := by
  decide

/-- C2 (amended): for every valid region and requested table list, the
run's transaction trace is exactly the region deletes — one per requested
table, dependents first per `DELETE_ORDER`, all before any append —
followed by the requested tables' appends grouped in the caller's request
order; when the requested list is the default `[PLOT, COND, TREE]`, the
appends are parent-first (every plot append before every condition and
tree append, every condition append before every tree append). -/
theorem C2_corrected :
    (∀ (statecd : Int) (tables : List String) (src : Src) (s : Store),
        (ingest_state statecd tables src s).trace
          = deleteTraceSpec statecd tables ++ loadTraceSpec src tables) ∧
      (∀ (statecd : Int) (src : Src) (s : Store),
        parentFirstLoads (ingest_state statecd ["PLOT", "COND", "TREE"] src s).trace = true) :=
  ⟨ingest_trace_eq, parentFirst_default⟩

/-- C10: condition and tree cleaning perform no row filtering — the
cleaned chunk has exactly the source chunk's rows, positionally, with the
whitelisted columns projected and the header lowercased; only plot
cleaning can drop rows (witnessed on a chunk with a coordinate-less
plot). -/
theorem C10_confirmed :
    (∀ df : DF, (clean_cond_df df).rows.length = df.rows.length ∧
        (clean_cond_df df).cols = (COND_COLS.filter (fun c => df.cols.contains c)).map strLower ∧
        (clean_cond_df df).rows = df.rows.map
          (fun r => (COND_COLS.filter (fun c => df.cols.contains c)).map (getCell df.cols r))) ∧
      (∀ df : DF, (clean_tree_df df).rows.length = df.rows.length ∧
        (clean_tree_df df).cols = (TREE_COLS.filter (fun c => df.cols.contains c)).map strLower ∧
        (clean_tree_df df).rows = df.rows.map
          (fun r => (TREE_COLS.filter (fun c => df.cols.contains c)).map (getCell df.cols r))) ∧
      (clean_plot_df plotChunkC1x).rows.length < plotChunkC1x.rows.length := by
  refine ⟨fun df => ⟨?_, rfl, rfl⟩, fun df => ⟨?_, rfl, rfl⟩, by decide⟩
  · simp [clean_cond_df, lowercaseCols, selectCols]
  · simp [clean_tree_df, lowercaseCols, selectCols]

/-- C1, counterexample: a TREE row referencing a plot whose source row
lacks coordinates survives cleaning (tree cleaning filters nothing) while
plot cleaning drops that plot, and the store enforces no foreign key, so
the completed run leaves a dangling parent-plot reference. -/
theorem C1_counterexample :
    fkSafeRegionB ((ingest_state 37 ["PLOT", "COND", "TREE"] srcC1x store0).store) 37 = false := by
  decide

/-- C1 (amended): after `ingest_state` for a region with tables
`[PLOT, COND, TREE]`, every Condition and TreeRecord row carrying the
run's region code has a resolvable parent-plot reference — provided each
snapshot chunk has a duplicate-free header and every dependent source
row's non-null `PLT_CN` references a source plot row with that `CN`, the
same `STATECD` and non-null coordinates. Dependents of coordinate-less or
absent plots can remain dangling, as the counterexample shows. -/
theorem C1_corrected (statecd : Int) (src : Src) (s : Store)
    (hndP : chunksNodupB (src "PLOT") = true)
    (hndC : chunksNodupB (src "COND") = true)
    (hndT : chunksNodupB (src "TREE") = true)
    (hdC : depsCoveredB (src "PLOT") (src "COND") = true)
    (hdT : depsCoveredB (src "PLOT") (src "TREE") = true) :
    fkSafeRegionB ((ingest_state statecd ["PLOT", "COND", "TREE"] src s).store) statecd
      = true := by
  rw [ingest_default_store]
  unfold fkSafeRegionB
  rw [List.all_eq_true]
  intro r hr
  obtain ⟨hmem, hcd⟩ := List.mem_filter.1 hr
  have hcd' : Row.get r "statecd" = some (Val.int statecd) := eq_of_beq hcd
  have main : ∀ (COLS : List String) (chunks : List DF), chunksNodupB chunks = true →
      depsCoveredB (src "PLOT") chunks = true →
      "PLT_CN" ∈ COLS → "STATECD" ∈ COLS → (COLS.map strLower).Nodup →
      ∀ r' ∈ cleanedRows chunks (genClean COLS) COLS,
        fkResolvedB (update_plot_geometry (delete_state_data s.fia_plot statecd ++
          cleanedRows (src "PLOT") clean_plot_df PLOT_COLS)) r' = true := by
    intro COLS chunks hnd hdeps hplt hstcd hlnd r' hr'
    rw [cleanedRows_gen _ _ hnd] at hr'
    rcases List.mem_flatten.1 hr' with ⟨rows, hrows, hrmem⟩
    rcases List.mem_map.1 hrows with ⟨ch, hch, hche⟩
    subst hche
    rcases List.mem_map.1 hrmem with ⟨r0, hr0, hr0e⟩
    subst hr0e
    unfold fkResolvedB
    have hget : Row.get (projRow COLS ch.cols r0) "plt_cn" = getCell ch.cols r0 "PLT_CN" := by
      rw [show ("plt_cn" : String) = strLower "PLT_CN" from rfl]
      exact projRow_get COLS ch.cols r0 "PLT_CN" hlnd hplt
    rw [hget]
    cases hplt_val : getCell ch.cols r0 "PLT_CN" with
    | none => rfl
    | some p =>
      have hall := List.all_eq_true.1 (List.all_eq_true.1 hdeps ch hch) r0 hr0
      rw [hplt_val] at hall
      rw [List.any_eq_true] at hall
      obtain ⟨pc, hpc, hin⟩ := hall
      rw [List.any_eq_true] at hin
      obtain ⟨q, hq, hconj⟩ := hin
      simp only [Bool.and_eq_true] at hconj
      obtain ⟨⟨⟨hcn, hst⟩, hlat⟩, hlon⟩ := hconj
      have hcn' : getCell pc.cols q "CN" = some p := eq_of_beq hcn
      have hst' : getCell pc.cols q "STATECD" = getCell ch.cols r0 "STATECD" := eq_of_beq hst
      rw [List.any_eq_true]
      refine ⟨updateGeomRow (projRow PLOT_COLS pc.cols q), ?_, ?_⟩
      · unfold update_plot_geometry
        refine List.mem_map_of_mem _ ?_
        refine List.mem_append.2 (Or.inr ?_)
        rw [cleanedRows_plot _ hndP]
        refine List.mem_flatten.2 ⟨_, List.mem_map_of_mem _ hpc, ?_⟩
        refine List.mem_map_of_mem _ ?_
        refine List.mem_filter.2 ⟨hq, ?_⟩
        rw [Bool.and_eq_true]
        exact ⟨hlat, hlon⟩
      · rw [Bool.and_eq_true]
        constructor
        · rw [updateGeomRow_get_ne _ "cn" (by decide),
              show ("cn" : String) = strLower "CN" from rfl,
              projRow_get PLOT_COLS pc.cols q "CN" (by decide) (by decide), hcn']
          exact beq_self_eq_true _
        · rw [updateGeomRow_get_ne _ "statecd" (by decide),
              show ("statecd" : String) = strLower "STATECD" from rfl,
              projRow_get PLOT_COLS pc.cols q "STATECD" (by decide) (by decide),
              projRow_get COLS ch.cols r0 "STATECD" hlnd hstcd, hst']
          exact beq_self_eq_true _
  rcases List.mem_append.1 hmem with hc | ht
  · rcases List.mem_append.1 hc with hdel | hload
    · exact absurd hcd' (mem_delete_statecd _ _ _ hdel)
    · rw [clean_cond_df_eq] at hload
      exact main COND_COLS (src "COND") hndC hdC (by decide) (by decide) (by decide) r hload
  · rcases List.mem_append.1 ht with hdel | hload
    · exact absurd hcd' (mem_delete_statecd _ _ _ hdel)
    · rw [clean_tree_df_eq] at hload
      exact main TREE_COLS (src "TREE") hndT hdT (by decide) (by decide) (by decide) r hload

/-- C1, witness: on a well-formed one-plot snapshot the amended FK-safety
holds after the run. -/
theorem C1_witness :
    fkSafeRegionB ((ingest_state 37 ["PLOT", "COND", "TREE"] srcC1w store0).store) 37 = true :=
  C1_corrected 37 srcC1w store0 (by decide) (by decide) (by decide) (by decide) (by decide)

/-- C3, counterexample: a snapshot carrying a row of a different state
(`STATECD = 1`) accumulates under re-ingestion for region 37 — the second
run's delete only removes `statecd = 37` rows, then re-appends the stray
row, growing `fia_plot` from 1 to 2 rows. -/
theorem C3_counterexample :
    ((ingest_state 37 ["PLOT", "COND", "TREE"] srcC3x store0).store.fia_plot).length = 1 ∧
      ((ingest_state 37 ["PLOT", "COND", "TREE"] srcC3x
        (ingest_state 37 ["PLOT", "COND", "TREE"] srcC3x store0).store).store.fia_plot).length
        = 2 := by
  decide

/-- C3 (amended): for every valid region and fixed snapshot in which
every source row carries the requested region's code (as FIA per-state
files do), running `ingest_state` twice in succession yields identical
final row counts in each loaded table — the second run is a true
replace. -/
theorem C3_corrected (statecd : Int) (src : Src) (s : Store)
    (hndP : chunksNodupB (src "PLOT") = true)
    (hndC : chunksNodupB (src "COND") = true)
    (hndT : chunksNodupB (src "TREE") = true)
    (hpP : chunksPureB (src "PLOT") statecd = true)
    (hpC : chunksPureB (src "COND") statecd = true)
    (hpT : chunksPureB (src "TREE") statecd = true) :
    ((ingest_state statecd ["PLOT", "COND", "TREE"] src
        ((ingest_state statecd ["PLOT", "COND", "TREE"] src s).store)).store.fia_plot).length
      = ((ingest_state statecd ["PLOT", "COND", "TREE"] src s).store.fia_plot).length ∧
    ((ingest_state statecd ["PLOT", "COND", "TREE"] src
        ((ingest_state statecd ["PLOT", "COND", "TREE"] src s).store)).store.fia_cond).length
      = ((ingest_state statecd ["PLOT", "COND", "TREE"] src s).store.fia_cond).length ∧
    ((ingest_state statecd ["PLOT", "COND", "TREE"] src
        ((ingest_state statecd ["PLOT", "COND", "TREE"] src s).store)).store.fia_tree).length
      = ((ingest_state statecd ["PLOT", "COND", "TREE"] src s).store.fia_tree).length := by
  have hPpure := cleanedRows_plot_statecd (src "PLOT") statecd hndP hpP
  have hCpure : ∀ r ∈ cleanedRows (src "COND") clean_cond_df COND_COLS,
      Row.get r "statecd" = some (Val.int statecd) := by
    rw [clean_cond_df_eq]
    exact cleanedRows_gen_statecd _ _ _ hndC hpC (by decide) (by decide)
  have hTpure : ∀ r ∈ cleanedRows (src "TREE") clean_tree_df TREE_COLS,
      Row.get r "statecd" = some (Val.int statecd) := by
    rw [clean_tree_df_eq]
    exact cleanedRows_gen_statecd _ _ _ hndT hpT (by decide) (by decide)
  rw [ingest_default_store, ingest_default_store]
  dsimp only
  refine ⟨?_, ?_, ?_⟩
  · rw [delete_update, delete_append, delete_idem, delete_pure_nil _ _ hPpure]
    simp [update_plot_geometry, List.length_append]
  · rw [delete_append, delete_idem, delete_pure_nil _ _ hCpure]
    simp [List.length_append]
  · rw [delete_append, delete_idem, delete_pure_nil _ _ hTpure]
    simp [List.length_append]

/-- C3, witness: re-running the ingest on a pure one-plot snapshot leaves
all three table sizes unchanged. -/
theorem C3_witness :
    ((ingest_state 37 ["PLOT", "COND", "TREE"] srcC1w
        ((ingest_state 37 ["PLOT", "COND", "TREE"] srcC1w store0).store)).store.fia_plot).length
      = ((ingest_state 37 ["PLOT", "COND", "TREE"] srcC1w store0).store.fia_plot).length ∧
    ((ingest_state 37 ["PLOT", "COND", "TREE"] srcC1w
        ((ingest_state 37 ["PLOT", "COND", "TREE"] srcC1w store0).store)).store.fia_cond).length
      = ((ingest_state 37 ["PLOT", "COND", "TREE"] srcC1w store0).store.fia_cond).length ∧
    ((ingest_state 37 ["PLOT", "COND", "TREE"] srcC1w
        ((ingest_state 37 ["PLOT", "COND", "TREE"] srcC1w store0).store)).store.fia_tree).length
      = ((ingest_state 37 ["PLOT", "COND", "TREE"] srcC1w store0).store.fia_tree).length :=
  C3_corrected 37 srcC1w store0 (by decide) (by decide) (by decide) (by decide) (by decide)
    (by decide)

/-- C4, counterexample: the geometry backfill carries no region filter —
with an empty snapshot, a run for region 37 modifies a stored plot row of
region 1 (filling its missing geometry), so a run's writes are not scoped
to its own region code. -/
theorem C4_counterexample :
    Row.get (storeC4x.fia_plot.getD 0 []) "statecd" = some (Val.int 1) ∧
      (ingest_state 37 ["PLOT", "COND", "TREE"] srcEmpty storeC4x).store.fia_plot
        ≠ storeC4x.fia_plot := by
  decide

/-- C4 (amended): for a snapshot whose rows all carry the run's region
code, every step except the geometry backfill leaves rows of other
regions untouched: the condition and tree rows not carrying the region
code are exactly those present before the run, and the plot rows not
carrying the region code are those present before with the geometry
backfill applied — a backfill that touches only the `geom` column of rows
lacking it, leaving every other column unchanged. -/
theorem C4_corrected (statecd : Int) (src : Src) (s : Store)
    (hndP : chunksNodupB (src "PLOT") = true)
    (hndC : chunksNodupB (src "COND") = true)
    (hndT : chunksNodupB (src "TREE") = true)
    (hpP : chunksPureB (src "PLOT") statecd = true)
    (hpC : chunksPureB (src "COND") statecd = true)
    (hpT : chunksPureB (src "TREE") statecd = true) :
    delete_state_data
        ((ingest_state statecd ["PLOT", "COND", "TREE"] src s).store.fia_cond) statecd
      = delete_state_data s.fia_cond statecd ∧
    delete_state_data
        ((ingest_state statecd ["PLOT", "COND", "TREE"] src s).store.fia_tree) statecd
      = delete_state_data s.fia_tree statecd ∧
    delete_state_data
        ((ingest_state statecd ["PLOT", "COND", "TREE"] src s).store.fia_plot) statecd
      = update_plot_geometry (delete_state_data s.fia_plot statecd) ∧
    (∀ (r : Row) (c : String), c ≠ "geom" → Row.get (updateGeomRow r) c = Row.get r c) := by
  have hPpure := cleanedRows_plot_statecd (src "PLOT") statecd hndP hpP
  have hCpure : ∀ r ∈ cleanedRows (src "COND") clean_cond_df COND_COLS,
      Row.get r "statecd" = some (Val.int statecd) := by
    rw [clean_cond_df_eq]
    exact cleanedRows_gen_statecd _ _ _ hndC hpC (by decide) (by decide)
  have hTpure : ∀ r ∈ cleanedRows (src "TREE") clean_tree_df TREE_COLS,
      Row.get r "statecd" = some (Val.int statecd) := by
    rw [clean_tree_df_eq]
    exact cleanedRows_gen_statecd _ _ _ hndT hpT (by decide) (by decide)
  rw [ingest_default_store]
  dsimp only
  refine ⟨?_, ?_, ?_, fun r c h => updateGeomRow_get_ne r c h⟩
  · rw [delete_append, delete_idem, delete_pure_nil _ _ hCpure, List.append_nil]
  · rw [delete_append, delete_idem, delete_pure_nil _ _ hTpure, List.append_nil]
  · rw [delete_update, delete_append, delete_idem, delete_pure_nil _ _ hPpure, List.append_nil]

/-- C9: the raster sampler returns exactly one value per input pair,
never the -9999 sentinel; an index outside the grid bounds and a cell
not exceeding the sentinel both yield a missing value. -/
theorem C9_confirmed (g : Raster) (lats lons : List ℚ) (h : lons.length = lats.length) :
    (sample_raster_at_points g lats lons).length = lats.length ∧
      (∀ v ∈ sample_raster_at_points g lats lons, v ≠ some (-9999)) ∧
      (∀ i : Nat, i < lats.length →
        (¬(0 ≤ (g.index (lons.getD i 0) (lats.getD i 0)).1 ∧
            (g.index (lons.getD i 0) (lats.getD i 0)).1 < (g.height : Int) ∧
            0 ≤ (g.index (lons.getD i 0) (lats.getD i 0)).2 ∧
            (g.index (lons.getD i 0) (lats.getD i 0)).2 < (g.width : Int)) →
          (sample_raster_at_points g lats lons).getD i none = none) ∧
        (g.read (g.index (lons.getD i 0) (lats.getD i 0)).1.toNat
            (g.index (lons.getD i 0) (lats.getD i 0)).2.toNat = -9999 →
          (sample_raster_at_points g lats lons).getD i none = none)) := by
  have hgetD : ∀ (lons' lats' : List ℚ) (i : Nat), lons'.length = lats'.length →
      i < lats'.length →
      (sample_raster_at_points g lats' lons').getD i none
        = samplePoint g (lons'.getD i 0) (lats'.getD i 0) := by
    intro lons'
    induction lons' with
    | nil =>
      intro lats' i hlen hi
      rw [List.length_nil] at hlen
      rw [← hlen] at hi
      cases hi
    | cons x xs ih =>
      intro lats' i hlen hi
      cases lats' with
      | nil => cases hi
      | cons y ys =>
        cases i with
        | zero => simp [sample_raster_at_points]
        | succ j =>
          have hlen' : xs.length = ys.length := by simpa using hlen
          have hi' : j < ys.length := by simpa using hi
          simpa [sample_raster_at_points] using ih ys j hlen' hi'
  refine ⟨?_, ?_, ?_⟩
  · unfold sample_raster_at_points
    rw [List.length_map, List.length_zip, h, Nat.min_self]
  · intro v hv
    rcases List.mem_map.1 hv with ⟨pt, _, rfl⟩
    unfold samplePoint
    by_cases hb : 0 ≤ (g.index pt.1 pt.2).1 ∧ (g.index pt.1 pt.2).1 < (g.height : Int) ∧
        0 ≤ (g.index pt.1 pt.2).2 ∧ (g.index pt.1 pt.2).2 < (g.width : Int)
    · rw [if_pos hb]
      by_cases hval : -9999 < g.read (g.index pt.1 pt.2).1.toNat (g.index pt.1 pt.2).2.toNat
      · rw [if_pos hval]
        intro he
        rw [Option.some_inj.1 he] at hval
        exact lt_irrefl _ hval
      · rw [if_neg hval]
        exact Option.noConfusion
    · rw [if_neg hb]
      exact Option.noConfusion
  · intro i hi
    rw [hgetD lons lats i h hi]
    constructor
    · intro hb
      unfold samplePoint
      rw [if_neg hb]
    · intro hval
      unfold samplePoint
      by_cases hb : 0 ≤ (g.index (lons.getD i 0) (lats.getD i 0)).1 ∧
          (g.index (lons.getD i 0) (lats.getD i 0)).1 < (g.height : Int) ∧
          0 ≤ (g.index (lons.getD i 0) (lats.getD i 0)).2 ∧
          (g.index (lons.getD i 0) (lats.getD i 0)).2 < (g.width : Int)
      · rw [if_pos hb, hval]
        norm_num
      · rw [if_neg hb]

/-- C9, witness: three concrete points against a 2×2 grid — one inside
with data, one outside the extent, one on the sentinel cell. -/
theorem C9_witness :
    (sample_raster_at_points rasterC9w [3 / 2, 10, 1 / 2] [1 / 2, 10, 1 / 2]).length
        = ([3 / 2, 10, 1 / 2] : List ℚ).length ∧
      (∀ v ∈ sample_raster_at_points rasterC9w [3 / 2, 10, 1 / 2] [1 / 2, 10, 1 / 2],
        v ≠ some (-9999)) ∧
      (∀ i : Nat, i < ([3 / 2, 10, 1 / 2] : List ℚ).length →
        (¬(0 ≤ (rasterC9w.index (([1 / 2, 10, 1 / 2] : List ℚ).getD i 0)
              (([3 / 2, 10, 1 / 2] : List ℚ).getD i 0)).1 ∧
            (rasterC9w.index (([1 / 2, 10, 1 / 2] : List ℚ).getD i 0)
              (([3 / 2, 10, 1 / 2] : List ℚ).getD i 0)).1 < (rasterC9w.height : Int) ∧
            0 ≤ (rasterC9w.index (([1 / 2, 10, 1 / 2] : List ℚ).getD i 0)
              (([3 / 2, 10, 1 / 2] : List ℚ).getD i 0)).2 ∧
            (rasterC9w.index (([1 / 2, 10, 1 / 2] : List ℚ).getD i 0)
              (([3 / 2, 10, 1 / 2] : List ℚ).getD i 0)).2 < (rasterC9w.width : Int)) →
          (sample_raster_at_points rasterC9w [3 / 2, 10, 1 / 2] [1 / 2, 10, 1 / 2]).getD i none
            = none) ∧
        (rasterC9w.read (rasterC9w.index (([1 / 2, 10, 1 / 2] : List ℚ).getD i 0)
              (([3 / 2, 10, 1 / 2] : List ℚ).getD i 0)).1.toNat
            (rasterC9w.index (([1 / 2, 10, 1 / 2] : List ℚ).getD i 0)
              (([3 / 2, 10, 1 / 2] : List ℚ).getD i 0)).2.toNat = -9999 →
          (sample_raster_at_points rasterC9w [3 / 2, 10, 1 / 2] [1 / 2, 10, 1 / 2]).getD i none
            = none)) :=
  C9_confirmed rasterC9w [3 / 2, 10, 1 / 2] [1 / 2, 10, 1 / 2] (by decide)

/-- C4, witness: amended frame property at a store holding one region-1
plot row, ingesting region 37 from a pure snapshot. -/
theorem C4_witness :
    delete_state_data
        ((ingest_state 37 ["PLOT", "COND", "TREE"] srcC1w storeC4x).store.fia_cond) 37
      = delete_state_data storeC4x.fia_cond 37 ∧
    delete_state_data
        ((ingest_state 37 ["PLOT", "COND", "TREE"] srcC1w storeC4x).store.fia_tree) 37
      = delete_state_data storeC4x.fia_tree 37 ∧
    delete_state_data
        ((ingest_state 37 ["PLOT", "COND", "TREE"] srcC1w storeC4x).store.fia_plot) 37
      = update_plot_geometry (delete_state_data storeC4x.fia_plot 37) ∧
    (∀ (r : Row) (c : String), c ≠ "geom" → Row.get (updateGeomRow r) c = Row.get r c) :=
  C4_corrected 37 srcC1w storeC4x (by decide) (by decide) (by decide) (by decide) (by decide)
    (by decide)

/-- C5: for a region with existing Plot rows — which, by the pipeline's
drop invariant, all carry coordinates — the climate loader deletes the
region's existing ClimateNormal rows in one transaction and then appends
the entire sampled-and-derived result set in a single second transaction,
so replaying any prefix of committed transactions never exposes a partial
append: the visible normals are the original rows, the deleted state, or
the deleted state plus the whole result set. -/
theorem C5_confirmed (statecd : Int) (rasters : String → Raster) (s : PrismStore)
    (hplots : (s.fia_plot.filter
      (fun r => Row.get r "statecd" == some (Val.int statecd))).length ≠ 0)
    (hinv : ∀ r ∈ s.fia_plot, (Row.get r "statecd" == some (Val.int statecd)) = true →
      (Row.get r "lat").isSome = true ∧ (Row.get r "lon").isSome = true) :
    (load_prism_normals statecd rasters s).1.prism_normals
        = prismKeptNormals statecd s ++ prismResultsRows statecd rasters s ∧
      (load_prism_normals statecd rasters s).2.1
        = [PTxn.delNormals statecd,
           PTxn.appendNormals (prismResultsRows statecd rasters s)] ∧
      (∀ k : Nat,
        (applyPTxns ((load_prism_normals statecd rasters s).2.1.take k) s).prism_normals
            = s.prism_normals ∨
          (applyPTxns ((load_prism_normals statecd rasters s).2.1.take k) s).prism_normals
            = prismKeptNormals statecd s ∨
          (applyPTxns ((load_prism_normals statecd rasters s).2.1.take k) s).prism_normals
            = prismKeptNormals statecd s ++ prismResultsRows statecd rasters s) := by
  have hne : prismPlots statecd s ≠ [] := by
    have hfne : s.fia_plot.filter
        (fun r => Row.get r "statecd" == some (Val.int statecd)) ≠ [] := by
      intro e
      exact hplots (by rw [e]; rfl)
    obtain ⟨r, hr⟩ := List.exists_mem_of_ne_nil _ hfne
    obtain ⟨hmem, hbeq⟩ := List.mem_filter.1 hr
    refine List.ne_nil_of_mem (a := r) ?_
    refine List.mem_filter.2 ⟨hmem, ?_⟩
    rw [Bool.and_eq_true, Bool.and_eq_true]
    exact ⟨⟨hbeq, (hinv r hmem hbeq).1⟩, (hinv r hmem hbeq).2⟩
  have hlen : ¬(prismPlots statecd s).length = 0 := by
    simpa [List.length_eq_zero] using hne
  have hload : load_prism_normals statecd rasters s =
      ({ fia_plot := s.fia_plot,
         prism_normals := prismKeptNormals statecd s ++ prismResultsRows statecd rasters s },
       [PTxn.delNormals statecd,
        PTxn.appendNormals (prismResultsRows statecd rasters s)],
       (prismResultsRows statecd rasters s).length) := by
    unfold load_prism_normals
    rw [if_neg hlen]
  refine ⟨by rw [hload], by rw [hload], ?_⟩
  intro k
  rw [hload]
  dsimp only
  match k with
  | 0 => exact Or.inl rfl
  | 1 => exact Or.inr (Or.inl rfl)
  | (n + 2) =>
    refine Or.inr (Or.inr ?_)
    rw [show List.take (n + 2)
        [PTxn.delNormals statecd, PTxn.appendNormals (prismResultsRows statecd rasters s)]
        = [PTxn.delNormals statecd, PTxn.appendNormals (prismResultsRows statecd rasters s)]
      from by simp]
    rfl

/-- C5, witness: a store with one georeferenced region-37 plot and a
stale normal row satisfies the hypotheses, so the delete-then-single-
append shape and the all-or-nothing replay property hold there. -/
theorem C5_witness :
    (load_prism_normals 37 rastersW prismStoreC5w).1.prism_normals
        = prismKeptNormals 37 prismStoreC5w ++ prismResultsRows 37 rastersW prismStoreC5w ∧
      (load_prism_normals 37 rastersW prismStoreC5w).2.1
        = [PTxn.delNormals 37,
           PTxn.appendNormals (prismResultsRows 37 rastersW prismStoreC5w)] ∧
      (∀ k : Nat,
        (applyPTxns ((load_prism_normals 37 rastersW prismStoreC5w).2.1.take k)
            prismStoreC5w).prism_normals = prismStoreC5w.prism_normals ∨
          (applyPTxns ((load_prism_normals 37 rastersW prismStoreC5w).2.1.take k)
            prismStoreC5w).prism_normals = prismKeptNormals 37 prismStoreC5w ∨
          (applyPTxns ((load_prism_normals 37 rastersW prismStoreC5w).2.1.take k)
            prismStoreC5w).prism_normals
            = prismKeptNormals 37 prismStoreC5w ++ prismResultsRows 37 rastersW prismStoreC5w) :=
  C5_confirmed 37 rastersW prismStoreC5w (by decide) (by decide)

/-- C6: for every valid region, the boundary loader returns a zero-rows
result without touching the store or raising when the regional filter
leaves no features, and otherwise deletes the region's existing rows and
appends the transformed feature set, reporting the filtered feature
count. -/
theorem C6_confirmed (state_abbr : String) (cd : Int) (gdf : GeoDF) (reproj : Val → Val)
    (s : TigerStore) (hvalid : STATE_CODES.lookup (strUpper state_abbr) = some cd) :
    (gdf.features.filter (fun f => f.STATEFP == zfill2 cd) = [] →
      load_county_boundaries_abbr state_abbr gdf reproj s = Except.ok (s, 0)) ∧
      (gdf.features.filter (fun f => f.STATEFP == zfill2 cd) ≠ [] →
        load_county_boundaries_abbr state_abbr gdf reproj s = Except.ok
          ({ county_boundaries :=
              s.county_boundaries.filter (fun r => !(Row.get r "statecd" == some (Val.int cd)))
                ++ (gdf.features.filter (fun f => f.STATEFP == zfill2 cd)).map
                    (countyRow cd (gdfNeedsReproj gdf) reproj) },
           (gdf.features.filter (fun f => f.STATEFP == zfill2 cd)).length)) := by
  have hw : load_county_boundaries_abbr state_abbr gdf reproj s
      = Except.ok (load_county_boundaries cd gdf reproj s) := by
    unfold load_county_boundaries_abbr
    rw [hvalid]
  constructor
  · intro hz
    rw [hw]
    unfold load_county_boundaries
    dsimp only
    rw [hz]
    rfl
  · intro hnz
    rw [hw]
    unfold load_county_boundaries
    dsimp only
    rw [if_neg (by simpa [List.length_eq_zero] using hnz)]
    simp [List.length_map]

/-- C6, witness: a national set with one North Carolina county loads it
for "NC" (replacing the stale row), and the Georgia-only filter case for
the same set returns zero rows without error. -/
theorem C6_witness :
    (gdfC6w.features.filter (fun f => f.STATEFP == zfill2 37) = [] →
      load_county_boundaries_abbr "NC" gdfC6w (fun v => v) tigerStoreC6w
        = Except.ok (tigerStoreC6w, 0)) ∧
      (gdfC6w.features.filter (fun f => f.STATEFP == zfill2 37) ≠ [] →
        load_county_boundaries_abbr "NC" gdfC6w (fun v => v) tigerStoreC6w = Except.ok
          ({ county_boundaries :=
              tigerStoreC6w.county_boundaries.filter
                  (fun r => !(Row.get r "statecd" == some (Val.int 37)))
                ++ (gdfC6w.features.filter (fun f => f.STATEFP == zfill2 37)).map
                    (countyRow 37 (gdfNeedsReproj gdfC6w) (fun v => v)) },
           (gdfC6w.features.filter (fun f => f.STATEFP == zfill2 37)).length)) :=
  C6_confirmed "NC" 37 gdfC6w (fun v => v) tigerStoreC6w (by decide)

/-- C7, counterexample: an archive whose only member is `README.txt` —
no CSV member at all — makes the FIA fallback fetch SUCCEED, returning
that member as the fetched file, instead of failing with an
archive-format error. -/
theorem C7_counterexample :
    (fiaRemoteC7x.members.any (fun m => strEndsWith m ".csv")) = false ∧
      (download_fia_csv fiaRemoteC7x).1 = Except.ok (ScratchFile.csvTmp, "README.txt") :=
  ⟨by decide, rfl⟩

/-- C7 (amended): only the PRISM fetch checks for a matching inner file,
failing with its no-matching-file condition when the archive has no
`.bil` member; the FIA fallback extracts the first member with no
matching at all — an empty archive fails with an index error and a
non-CSV first member is returned as the fetch result. -/
theorem C7_corrected :
    (∀ (cOk : Bool) (ms : List String),
      (download_fia_csv ⟨false, cOk, true, true, ms⟩).1 =
        match ms with
        | [] => Except.error FetchErr.indexError
        | m :: _ => Except.ok (ScratchFile.csvTmp, m)) ∧
      (∀ ms : List String,
        (download_prism_bil ⟨true, true, ms⟩).1 =
          match ms.filter (fun m => strEndsWith m ".bil") with
          | [] => Except.error FetchErr.noBilFile
          | b :: _ => Except.ok b) := by
  constructor
  · intro cOk ms
    cases ms <;> rfl
  · intro ms
    cases hf : ms.filter (fun m => strEndsWith m ".bil") with
    | nil => simp [download_prism_bil, hf]
    | cons b bs => simp [download_prism_bil, hf]

/-- C8, counterexample: when the archive downloads but does not open as a
zip, the extracted-file temp (created before the zip is opened) survives
the raising fetch — the `finally` removes only the archive — so not every
scratch file is removed on every exit path. -/
theorem C8_counterexample :
    (fetch_table_scratch fiaRemoteC8x true).2 = [ScratchFile.csvTmp] ∧
      (fetch_table_scratch fiaRemoteC8x true).2 ≠ [] := by
  decide

/-- C8 (amended): an exact characterization of the scratch files
surviving one per-table fetch-transform-load iteration and one PRISM
variable fetch: nothing survives on success (for any transform or load
outcome, thanks to the caller's `finally`) nor on an archive download
failure; a failed direct CSV download leaves its temp file, an unreadable
or empty archive leaves the extracted-file temp, and a failed PRISM fetch
leaves its scratch directory's contents. -/
theorem C8_corrected :
    (∀ (rm : FiaRemote) (tOk : Bool),
      (fetch_table_scratch rm tOk).2 =
        if rm.csvExists then (if rm.csvOk then [] else [ScratchFile.directTmp])
        else if !rm.zipOk then []
        else if !rm.zipReadable then [ScratchFile.csvTmp]
        else match rm.members with
          | [] => [ScratchFile.csvTmp]
          | _ :: _ => []) ∧
      (∀ rm : PrismRemote,
        (prism_fetch_scratch rm).2 =
          if !rm.dlOk then ["prism.zip"]
          else if !rm.zipReadable then ["prism.zip"]
          else match rm.members.filter (fun m => strEndsWith m ".bil") with
            | [] => rm.members
            | _ :: _ => []) := by
  constructor
  · intro rm tOk
    obtain ⟨ce, cok, zok, zr, ms⟩ := rm
    cases ce <;> cases cok <;> cases zok <;> cases zr <;> cases ms <;> cases tOk <;> rfl
  · intro rm
    obtain ⟨dl, zr, ms⟩ := rm
    cases dl <;> cases zr <;>
      first
        | rfl
        | (cases hf : ms.filter (fun m => strEndsWith m ".bil") with
            | nil => simp [prism_fetch_scratch, download_prism_bil, hf]
            | cons b bs => simp [prism_fetch_scratch, download_prism_bil, hf])

end ForestExplorer
